import Mathlib

/-!
Verification development for the Task-Card Synchronization Engine of the
trello-claude-sync repository.

The TypeScript sources are shallowly embedded as Lean definitions:

* strings are modelled as sequences of Unicode scalar values (`List Char`,
  wrapped in `String` at the API boundary); JavaScript operates on UTF-16
  code units, and the one place the difference is visible (a lone high
  surrogate produced when `replace(/^[✅⚙️📋]\s*/, '')` strips the first
  unit of 📋) is noted at the definition it affects;
* `async` remote calls through the Trello client are modelled by an
  `Oracle` that fixes the outcome of every remote operation, plus an
  explicit log of issued calls; a thrown JavaScript error is modelled as
  `Except.error` carrying the error message;
* the persisted session file is modelled as an explicit `SessionState`
  value threaded through the operations; `new Date().toISOString()` is an
  explicit `now` parameter.

Each claim theorem cites the claim id in its doc comment.
-/

/-! ## Character and line utilities -/

/-- Bullet characters accepted by the task-line regexes: the class `[-*•]`. -/
def isBulletChar (c : Char) : Bool :=
  c = '-' || c = '*' || c = '•'

/-- JavaScript `\s` (and `String.prototype.trim`) whitespace class:
space, the control whitespace characters, NBSP, BOM, and the Unicode
space separators and line/paragraph separators. -/
def isJsWs (c : Char) : Bool :=
  c = ' ' || c = '\t' || c = '\n' || c = '\r' || c = '\u000B' || c = '\u000C' ||
  c = '\u00A0' || c = '\uFEFF' || c = '\u1680' ||
  ('\u2000' ≤ c && c ≤ '\u200A') ||
  c = '\u2028' || c = '\u2029' || c = '\u202F' || c = '\u205F' || c = '\u3000'

/-- `String.prototype.trim`: drop leading and trailing whitespace. -/
def trimChars (l : List Char) : List Char :=
  ((l.dropWhile isJsWs).reverse.dropWhile isJsWs).reverse

/-- `String.prototype.split('\n')`: split into lines at newline characters.
Always returns at least one (possibly empty) line. -/
def splitLines : List Char → List (List Char)
  | [] => [[]]
  | c :: rest =>
    if c = '\n' then [] :: splitLines rest
    else
      match splitLines rest with
      | [] => [[c]]
      | x :: xs => (c :: x) :: xs

/-- `Array.prototype.join('\n')`. -/
def joinLines : List (List Char) → List Char
  | [] => []
  | [l] => l
  | l :: ls => l ++ '\n' :: joinLines ls

/-- Sub-list (contiguous substring) occurrence test, modelling
`String.prototype.includes`. -/
def startsList : List Char → List Char → Bool
  | [], _ => true
  | _ :: _, [] => false
  | n :: ns, h :: hs => n = h && startsList ns hs

/-- `hay.includes(needle)` on code-point sequences. -/
def containsList (needle : List Char) : List Char → Bool
  | [] => startsList needle []
  | h :: hs => startsList needle (h :: hs) || containsList needle hs

/-- `String.prototype.toLowerCase`, modelled per code point. -/
def lowerChars (l : List Char) : List Char :=
  l.map Char.toLower

/-- JavaScript truthiness of an optional string: `undefined` and `''` are
falsy. -/
def jsFalsy : Option String → Bool
  | none => true
  | some s => s = ""

/-- String interpolation of a possibly-`undefined` value: JavaScript renders
`undefined` as the text `"undefined"`. -/
def jsShow : Option String → String
  | none => "undefined"
  | some s => s

/-- `x || y` for strings: `''` falls through to the default. -/
def jsOrElse (s d : String) : String :=
  if s = "" then d else s

/-- `card.desc || ''`. -/
def jsOrEmpty : Option String → String
  | none => ""
  | some s => s

/-! ## Data model -/

/-- A TodoWrite task (`TodoTask` in `src/types/index.ts`). The TypeScript
type restricts `status` to a three-value union, but the runtime value is an
arbitrary string and the sources contain `default` branches for other
values, so `status` is embedded as `String`. -/
structure TodoTask where
  content : String
  status : String
  activeForm : String
deriving Repr, DecidableEq

/-- A Trello card (`TrelloCard` in `src/types/index.ts`, fields used by the
engine). -/
structure TrelloCard where
  id : String
  name : String
  desc : Option String
  idList : String
  url : String
  dateLastActivity : String
deriving Repr, DecidableEq

/-- A Trello list (`TrelloList`). -/
structure TrelloList where
  id : String
  name : String
deriving Repr, DecidableEq

/-- A Trello label (`TrelloLabel`). -/
structure TrelloLabel where
  id : String
  name : String
  color : String
deriving Repr, DecidableEq

/-- A checklist item as returned by the Trello API: `state` is the string
`"complete"` or `"incomplete"`. -/
structure CheckItem where
  id : String
  name : String
  state : String
deriving Repr, DecidableEq

/-- A checklist (`checklist.checkItems` may be absent in the source; the
embedding uses the `|| []` default applied at the use site). -/
structure Checklist where
  id : String
  name : String
  checkItems : List CheckItem
deriving Repr, DecidableEq

/-- The persisted session record (`SessionState` in `src/utils/session.ts`).
All fields are optional in the source. -/
structure SessionState where
  currentCardId : Option String := none
  currentCardName : Option String := none
  linkedTasks : Option (List TodoTask) := none
  createdAt : Option String := none
  lastActivity : Option String := none
deriving Repr, DecidableEq

/-- Configured list ids (`TrelloConfig.listIds`). -/
structure ListIds where
  todo : Option String := none
  inProgress : Option String := none
  review : Option String := none
  done : Option String := none
deriving Repr, DecidableEq

/-- `TrelloConfig` (fields relevant to the status mapper). -/
structure TrelloConfig where
  listIds : Option ListIds := none
deriving Repr, DecidableEq

/-- Outcome record of `SimpleAutoSyncService.syncTasks`:
`{ success, message, completed?, total?, error? }`. -/
structure SyncOutcome where
  success : Bool
  message : String
  completed : Option Nat := none
  total : Option Nat := none
  error : Option String := none
deriving Repr, DecidableEq

/-! ## Session store (`src/utils/session.ts`)

The session file is modelled as an in-memory `SessionState`;
`new Date().toISOString()` is the explicit `now` argument. -/

/-- `saveSession`: spreads the record and stamps `lastActivity`. -/
def saveSession (now : String) (s : SessionState) : SessionState :=
  { s with lastActivity := some now }

/-- `clearSession`: writes `{}` (note: directly, not through `saveSession`,
so no `lastActivity` stamp). -/
def clearSession : SessionState :=
  {}

/-- `session.createdAt || new Date().toISOString()` — JavaScript `||`, so an
empty string also falls through to `now`. -/
def jsOrNow (v : Option String) (now : String) : String :=
  match v with
  | some s => if s = "" then now else s
  | none => now

/-- `setActiveCard(cardId, cardName, tasks?)`. -/
def setActiveCard (now : String) (cardId cardName : String)
    (tasks : Option (List TodoTask)) (s : SessionState) : SessionState :=
  saveSession now
    { s with
      currentCardId := some cardId
      currentCardName := some cardName
      linkedTasks := tasks
      createdAt := some (jsOrNow s.createdAt now) }

/-- `updateSessionTasks(tasks)`: only writes when `session.currentCardId` is
truthy. -/
def updateSessionTasks (now : String) (tasks : List TodoTask)
    (s : SessionState) : SessionState :=
  if jsFalsy s.currentCardId then s
  else saveSession now { s with linkedTasks := some tasks }

/-- `getActiveCard()`. -/
def getActiveCard (s : SessionState) :
    Option String × Option String × Option (List TodoTask) :=
  (s.currentCardId, s.currentCardName, s.linkedTasks)

/-! ## Description Reconciler
(`SimpleAutoSyncService.generateUpdatedDescription`, identical in the two
service variants)

The task-line test in the source is
`trimmed.match(/^[-*•]\s+[✅⚙️📋]?\s*(.+)/) || trimmed.match(/^\[[ x]\]\s+(.+)/)`.
Because `[✅⚙️📋]?` and `\s*` may match the empty string and `.+` matches any
non-empty remainder (`.` also matches whitespace), the first regex succeeds
exactly when the string starts with a bullet character followed by one
whitespace character and at least one further character; the second succeeds
exactly when the string starts with `[ ]` or `[x]` followed by one whitespace
character and at least one further character.  The variant regex
`/^[-*•]\s+(.+)/` used in `src/slash-commands.ts` succeeds under exactly the
same condition as the first, so one embedding serves both. -/

/-- `^[-*•]\s+[✅⚙️📋]?\s*(.+)` (equivalently `^[-*•]\s+(.+)`) on an
already-trimmed string. -/
def bulletMatch : List Char → Bool
  | c0 :: c1 :: rest => isBulletChar c0 && isJsWs c1 && !rest.isEmpty
  | _ => false

/-- `^\[[ x]\]\s+(.+)` on an already-trimmed string. -/
def checkboxMatch : List Char → Bool
  | '[' :: m :: ']' :: w :: rest => (m = ' ' || m = 'x') && isJsWs w && !rest.isEmpty
  | _ => false

/-- Task-line test on an already-trimmed line. -/
def isTaskLineTrim (t : List Char) : Bool :=
  bulletMatch t || checkboxMatch t

/-- Task-line test on a raw line (the source always matches against
`line.trim()`). -/
def isTaskL (l : List Char) : Bool :=
  isTaskLineTrim (trimChars l)

/-- Section-terminator test on an already-trimmed line:
`trimmed === '' || trimmed.startsWith('#') || trimmed.startsWith('---')`. -/
def isTermTrim (t : List Char) : Bool :=
  t.isEmpty || startsList ['#'] t || startsList ['-', '-', '-'] t

/-- Section-terminator test on a raw line. -/
def isTermL (l : List Char) : Bool :=
  isTermTrim (trimChars l)

/-- The character class `[✅⚙️📋]` of the glyph-stripping regexes.  In
JavaScript (no `u` flag) the class consists of the UTF-16 units
`2705, 2699, FE0F, D83D, DCCB`; on scalar values this is `✅`, `⚙`,
`U+FE0F` and `📋` (the surrogates `D83D/DCCB` are not scalar values; for a
content starting with `📋` the JavaScript original strips only the high
surrogate, leaving a lone low surrogate — the embedding strips the full
code point; no claim depends on this corner). -/
def isGlyphChar (c : Char) : Bool :=
  c = '✅' || c = '⚙' || c = '️' || c = '📋'

/-- `content.replace(/^[✅⚙️📋]\s*/, '')`. -/
def stripLeadingGlyph : List Char → List Char
  | [] => []
  | c :: rest => if isGlyphChar c then rest.dropWhile isJsWs else c :: rest

/-- `SimpleAutoSyncService.getStatusIcon` — note the `default` branch maps
every unrecognized status to `📋`. -/
def getStatusIcon (status : String) : String :=
  if status = "completed" then "✅"
  else if status = "in_progress" then "⚙️"
  else "📋"

/-- One rendered task line: `` `- ${statusIcon} ${cleanContent}` ``. -/
def renderTaskLine (t : TodoTask) : List Char :=
  (("- ").data) ++ (getStatusIcon t.status).data ++ ' ' :: stripLeadingGlyph t.content.data

/-- The block of rendered task lines, in task order. -/
def renderAll (tasks : List TodoTask) : List (List Char) :=
  tasks.map renderTaskLine

/-- The line-scanning loop of `generateUpdatedDescription`: state is
`(inTaskSection, taskSectionFound)`; returns the emitted lines and the final
state.  Task lines are skipped; when a terminator line is met inside a task
section the rendered block is inserted before it. -/
def descLoop (tasks : List TodoTask) :
    List (List Char) → Bool → Bool → List (List Char) × Bool × Bool
  | [], inTS, found => ([], inTS, found)
  | l :: ls, inTS, found =>
    if isTaskL l then descLoop tasks ls true true
    else if inTS && isTermL l then
      let r := descLoop tasks ls false found
      (renderAll tasks ++ l :: r.1, r.2)
    else
      let r := descLoop tasks ls inTS found
      (l :: r.1, r.2)

/-- Number of times the insert-before-terminator branch fires (a derived
quantity used to state when the reconciler actually re-emits the block). -/
def countInserts : List (List Char) → Bool → Nat
  | [], _ => 0
  | l :: ls, inTS =>
    if isTaskL l then countInserts ls true
    else if inTS && isTermL l then 1 + countInserts ls false
    else countInserts ls inTS

/-- `SimpleAutoSyncService.generateUpdatedDescription` (identical in
`simple-auto-sync` variants): split into lines, scan, and append a fresh
`## Current Tasks` section when no task section was found and the task list
is non-empty. -/
def generateUpdatedDescription (originalDescription : String)
    (tasks : List TodoTask) : String :=
  let lines := splitLines originalDescription.data
  let r := descLoop tasks lines false false
  let out :=
    if !r.2.2 && !tasks.isEmpty then
      r.1 ++ [[], (("## Current Tasks").data)] ++ renderAll tasks
    else r.1
  String.mk (joinLines out)

/-! ## Checklist Reconciler (`SimpleAutoSyncService`) -/

/-- `replace(/\s+/g, ' ')`, written with an in-run flag so the recursion is
structural: a whitespace character opening a run emits one space, further
whitespace in the same run emits nothing, everything else is kept. -/
def collapseWsAux : Bool → List Char → List Char
  | _, [] => []
  | inRun, c :: rest =>
    if isJsWs c then
      if inRun then collapseWsAux true rest
      else ' ' :: collapseWsAux true rest
    else c :: collapseWsAux false rest

/-- `replace(/\s+/g, ' ')`: each maximal whitespace run becomes one space. -/
def collapseWs (l : List Char) : List Char :=
  collapseWsAux false l

/-- The class kept by `replace(/[^a-z0-9\s]/g, '')`. -/
def keepAlnumWs (c : Char) : Bool :=
  ('a' ≤ c && c ≤ 'z') || ('0' ≤ c && c ≤ '9') || isJsWs c

/-- `SimpleAutoSyncService.cleanTaskContent`: strip a leading status glyph,
trim, lower-case, drop characters outside `[a-z0-9\s]`, collapse whitespace
runs. -/
def cleanTaskContent (content : String) : String :=
  String.mk
    (collapseWs
      ((lowerChars (trimChars (stripLeadingGlyph content.data))).filter keepAlnumWs))

/-- `String.prototype.split(' ')` (a literal space — after
`cleanTaskContent` all whitespace has been collapsed to spaces). -/
def splitOnSpace : List Char → List (List Char)
  | [] => [[]]
  | c :: rest =>
    if c = ' ' then [] :: splitOnSpace rest
    else
      match splitOnSpace rest with
      | [] => [[c]]
      | x :: xs => (c :: x) :: xs

/-- `SimpleAutoSyncService.findMatchingChecklistItem`: exact normalized
match, then containment match, then keyword match (tokens of length > 3). -/
def findMatchingChecklistItem (checkItems : List CheckItem)
    (todoTaskContent : String) : Option CheckItem :=
  let cleanTodo := cleanTaskContent todoTaskContent
  match checkItems.find? (fun item => cleanTaskContent item.name == cleanTodo) with
  | some m => some m
  | none =>
    match checkItems.find? (fun item =>
        containsList cleanTodo.data (cleanTaskContent item.name).data ||
        containsList (cleanTaskContent item.name).data cleanTodo.data) with
    | some m => some m
    | none =>
      let todoKeywords := (splitOnSpace cleanTodo.data).filter (fun w => 3 < w.length)
      checkItems.find? (fun item =>
        todoKeywords.any (fun keyword =>
          containsList keyword (cleanTaskContent item.name).data))

/-- The update call (if any) the checklist loop issues for one task against
one checklist's items: issued only when the matched item's fetched state
disagrees with the task's status. -/
def taskCall (items : List CheckItem) (t : TodoTask) : Option (String × Bool) :=
  match findMatchingChecklistItem items t.content with
  | some m =>
    let shouldBeCompleted := t.status == "completed"
    if shouldBeCompleted != (m.state == "complete") then
      some (m.id, shouldBeCompleted)
    else none
  | none => none

/-- The `updateChecklistItem` calls issued by
`SimpleAutoSyncService.syncChecklistsWithTodoWrite`, in issue order:
checklists in fetched order, and for each checklist every task in batch
order (the matching itself is pure, so the emitted call sequence fully
describes the loop's remote effect). -/
def checklistCalls (checklists : List Checklist) (tasks : List TodoTask) :
    List (String × Bool) :=
  checklists.flatMap (fun cl => tasks.filterMap (taskCall cl.checkItems))

/-- Modelled from the spec: the Board Client operation
`updateChecklistItem(cardId, itemId, completed)` (the client method is not
present under `src/`; §6 of the spec specifies it as setting the completion
state of the item with the given id).  One call applied to a fetched item
list. -/
def applyCall (items : List CheckItem) (c : String × Bool) : List CheckItem :=
  items.map (fun i =>
    if i.id == c.1 then
      { i with state := if c.2 then "complete" else "incomplete" }
    else i)

/-- Remote item state after a sequence of `updateChecklistItem` calls. -/
def applyCalls (items : List CheckItem) (calls : List (String × Bool)) :
    List CheckItem :=
  calls.foldl applyCall items

/-- Completion flag of the item with the given id. -/
def itemStateById (items : List CheckItem) (itemId : String) : Option Bool :=
  (items.find? (fun i => i.id == itemId)).map (fun i => i.state == "complete")

/-! ## Status mapper (`TodoTrelloSync.getTargetListId`) -/

/-- `getTargetListId`: `pending → listIds?.todo`,
`in_progress → listIds?.inProgress`, `completed → listIds?.done`, and the
`default` branch also returns `listIds?.todo`. -/
def getTargetListId (config : TrelloConfig) (status : String) : Option String :=
  if status = "pending" then config.listIds.bind (fun li => li.todo)
  else if status = "in_progress" then config.listIds.bind (fun li => li.inProgress)
  else if status = "completed" then config.listIds.bind (fun li => li.done)
  else config.listIds.bind (fun li => li.todo)

/-- `tasks.filter(t => t.status === 'completed').length`. -/
def completedCount (tasks : List TodoTask) : Nat :=
  (tasks.filter (fun t => t.status == "completed")).length

/-- `tasks.filter(t => t.status === 'in_progress').length`. -/
def inProgressCount (tasks : List TodoTask) : Nat :=
  (tasks.filter (fun t => t.status == "in_progress")).length

/-! ## Remote-call model

Every awaited Trello client method is resolved through an `Oracle` fixing
the outcome of each remote operation (`Except.error msg` models a thrown
error with message `msg`), and every issued call is appended to a log.
`client.getListId` reads the client's in-memory discovered-list cache and is
therefore not logged as a remote call. -/

/-- A record of one issued remote call, with its arguments. -/
inductive RemoteCall where
  | connect
  | getCard (cardId : String)
  | updateCard (cardId : String) (name : Option String) (desc : String)
  | moveCard (cardId listId : String)
  | addComment (cardId text : String)
  | getCardChecklists (cardId : String)
  | updateChecklistItem (cardId itemId : String) (completed : Bool)
  | createCard (name desc : String)
  | createChecklist (cardId name : String) (itemNames : List String)
  | searchCards (query : String)
  | getLists
  | getBoard
  | getBoardLabels
  | createLabel (name color : String)
  | addLabelToCard (cardId labelId : String)
deriving Repr, DecidableEq

/-- Environment fixing each remote operation's outcome.  `localeFormat`
models `new Date(x).toLocaleString()` and `dateNow` models `Date.now()`
(both environment-dependent pure values). -/
structure Oracle where
  connect : Except String Unit
  getCard : String → Except String TrelloCard
  updateCard : String → Option String → String → Except String TrelloCard
  moveCard : String → String → Except String TrelloCard
  addComment : String → String → Except String Unit
  getCardChecklists : String → Except String (List Checklist)
  updateChecklistItem : String → String → Bool → Except String Unit
  createCard : String → String → Except String TrelloCard
  createChecklist : String → String → List String → Except String Unit
  searchCards : String → Except String (List TrelloCard)
  getLists : Except String (List TrelloList)
  getBoard : Except String Unit
  getListId : String → Option String
  getBoardLabels : Except String (List TrelloLabel)
  createLabel : String → String → Except String TrelloLabel
  addLabelToCard : String → String → Except String Unit
  localeFormat : String → String
  dateNow : String

/-- Issued-call log. -/
abbrev Log := List RemoteCall

/-! ## Sync Orchestrators (`SimpleAutoSyncService.syncTasks`)

Two variants of `SimpleAutoSyncService` exist in the repository: the
description-only one (whose progress comment the unit tests assert) and the
checklist-syncing one.  Both are embedded. -/

/-- The inner `for` loops of `syncChecklistsWithTodoWrite`, issuing the
pure call sequence `checklistCalls` until a call fails. -/
def issueChecklistCalls (o : Oracle) (cardId : String) :
    List (String × Bool) → Log → Except String Unit × Log
  | [], log => (.ok (), log)
  | c :: rest, log =>
    let log1 := log ++ [RemoteCall.updateChecklistItem cardId c.1 c.2]
    match o.updateChecklistItem cardId c.1 c.2 with
    | .error e => (.error e, log1)
    | .ok _ => issueChecklistCalls o cardId rest log1

/-- `SimpleAutoSyncService.syncChecklistsWithTodoWrite`: fetch checklists,
skip when none, otherwise issue the item updates.  Its own `try/catch`
swallows every failure (logged, not rethrown), so the phase only extends the
call log and never fails the batch. -/
def syncChecklistsPhase (o : Oracle) (cardId : String) (tasks : List TodoTask)
    (log : Log) : Log :=
  let log1 := log ++ [RemoteCall.getCardChecklists cardId]
  match o.getCardChecklists cardId with
  | .error _ => log1
  | .ok checklists =>
    if checklists.length = 0 then log1
    else (issueChecklistCalls o cardId (checklistCalls checklists tasks) log1).2

/-- The `catch` branch of `syncTasks`. -/
def syncFailOutcome (e : String) : SyncOutcome :=
  { success := false, message := "Auto-sync failed: " ++ e, error := some e }

/-- The success return of `syncTasks` (same literal in both variants). -/
def syncOkOutcome (tasks : List TodoTask) : SyncOutcome :=
  { success := true
    message := "Synced " ++ toString tasks.length ++ " tasks to Trello"
    completed := some (completedCount tasks)
    total := some tasks.length }

/-- `SimpleAutoSyncService.syncTasks`, checklist-syncing variant: no-op
success when the session holds no active card; otherwise the session's
tracked tasks are replaced *before* any remote call, then connect, fetch,
description update, checklist phase, and a milestone comment posted only
when `completed > 0 && (completed % 2 === 0 || completed === tasks.length)`. -/
def syncTasksChecklist (o : Oracle) (sess : SessionState)
    (tasks : List TodoTask) (now : String) : SyncOutcome × SessionState × Log :=
  if jsFalsy sess.currentCardId then
    ({ success := true, message := "No active card" }, sess, [])
  else
    let cardId := jsOrEmpty sess.currentCardId
    let sess1 := updateSessionTasks now tasks sess
    match o.connect with
    | .error e => (syncFailOutcome e, sess1, [RemoteCall.connect])
    | .ok _ =>
      match o.getCard cardId with
      | .error e =>
        (syncFailOutcome e, sess1, [RemoteCall.connect, RemoteCall.getCard cardId])
      | .ok card =>
        let updatedDescription :=
          generateUpdatedDescription (jsOrEmpty card.desc) tasks
        let log3 := [RemoteCall.connect, RemoteCall.getCard cardId,
          RemoteCall.updateCard cardId none updatedDescription]
        match o.updateCard cardId none updatedDescription with
        | .error e => (syncFailOutcome e, sess1, log3)
        | .ok _ =>
          let log4 := syncChecklistsPhase o cardId tasks log3
          let completed := completedCount tasks
          if 0 < completed ∧ (completed % 2 = 0 ∨ completed = tasks.length) then
            let text := "🎯 **Auto-sync Progress:** " ++ toString completed ++
              "/" ++ toString tasks.length ++ " tasks completed ✨"
            let log5 := log4 ++ [RemoteCall.addComment cardId text]
            match o.addComment cardId text with
            | .error e => (syncFailOutcome e, sess1, log5)
            | .ok _ => (syncOkOutcome tasks, sess1, log5)
          else (syncOkOutcome tasks, sess1, log4)

/-- The progress comment text of the description-only variant:
`` `📊 **Progress Update:** ${completed}/${tasks.length} completed` `` with
`` ` (${inProgress} in progress)` `` appended when `inProgress > 0`. -/
def progressUpdateMsg (tasks : List TodoTask) : String :=
  "📊 **Progress Update:** " ++ toString (completedCount tasks) ++
    "/" ++ toString tasks.length ++ " completed" ++
    (if 0 < inProgressCount tasks then
      " (" ++ toString (inProgressCount tasks) ++ " in progress)"
    else "")

/-- `SimpleAutoSyncService.syncTasks`, description-only variant (asserted by
`simple-auto-sync.test.ts`): same flow without the checklist phase, and an
unconditional progress comment. -/
def syncTasksDescOnly (o : Oracle) (sess : SessionState)
    (tasks : List TodoTask) (now : String) : SyncOutcome × SessionState × Log :=
  if jsFalsy sess.currentCardId then
    ({ success := true, message := "No active card" }, sess, [])
  else
    let cardId := jsOrEmpty sess.currentCardId
    let sess1 := updateSessionTasks now tasks sess
    match o.connect with
    | .error e => (syncFailOutcome e, sess1, [RemoteCall.connect])
    | .ok _ =>
      match o.getCard cardId with
      | .error e =>
        (syncFailOutcome e, sess1, [RemoteCall.connect, RemoteCall.getCard cardId])
      | .ok card =>
        let updatedDescription :=
          generateUpdatedDescription (jsOrEmpty card.desc) tasks
        let log3 := [RemoteCall.connect, RemoteCall.getCard cardId,
          RemoteCall.updateCard cardId none updatedDescription]
        match o.updateCard cardId none updatedDescription with
        | .error e => (syncFailOutcome e, sess1, log3)
        | .ok _ =>
          let progressMessage := progressUpdateMsg tasks
          let log4 := log3 ++ [RemoteCall.addComment cardId progressMessage]
          match o.addComment cardId progressMessage with
          | .error e => (syncFailOutcome e, sess1, log4)
          | .ok _ => (syncOkOutcome tasks, sess1, log4)

/-! ## Slash-command helpers (`src/slash-commands.ts`) -/

/-- `trimmed.replace(/^#+\s*/, '')`: strips only when at least one leading
`#` is present. -/
def stripHashes (l : List Char) : List Char :=
  match l with
  | '#' :: _ => (l.dropWhile (fun c => c = '#')).dropWhile isJsWs
  | _ => l

/-- `extractTitleFromPlan`: first line whose trimmed form has length
strictly between 5 and 100 and does not start with `-` or `*`; leading
markdown header marks removed.  (JavaScript `.length` counts UTF-16 units;
the embedding counts code points.) -/
def extractTitleFromPlan (planText : Option String) : String :=
  if jsFalsy planText then "Development Task"
  else
    let lines := splitLines (jsOrEmpty planText).data
    match lines.find? (fun line =>
        let trimmed := trimChars line
        decide (5 < trimmed.length) && decide (trimmed.length < 100) &&
        !startsList (("-").data) trimmed && !startsList (("*").data) trimmed) with
    | some line => String.mk (stripHashes (trimChars line))
    | none => "Development Task"

/-- `formatPlanAsDescription` (the `${Date.now()}` interpolation is the
oracle-supplied `dateNow`). -/
def formatPlanAsDescription (planText : Option String) (dateNow : String) :
    String :=
  if jsFalsy planText then
    "## Development Task\n\n*Created from Claude Code TodoWrite plan*\n\n### Tasks\n- Task planning in progress...\n\n---\n*Use /trello-pickup to resume work on this card*"
  else
    "## Development Plan\n\n" ++ jsOrEmpty planText ++
      "\n\n---\n*Created from Claude Code TodoWrite plan*\n*Use /trello-pickup " ++
      dateNow ++ " to resume work on this card*"

/-- `^[0-9]+\.\s+(.+)`: a non-empty digit run, a dot, one whitespace
character, and a non-empty remainder (the dot can only sit at the end of the
maximal digit run, and `.+` absorbs everything after the first whitespace
character). -/
def numberedMatch (t : List Char) : Bool :=
  let ds := t.takeWhile (fun c => '0' ≤ c && c ≤ '9')
  !ds.isEmpty &&
    (match t.drop ds.length with
     | '.' :: w :: rest => isJsWs w && !rest.isEmpty
     | _ => false)

/-- The character class of `replace(/^[-*•\[\] x0-9\.]+\s*/, '')`. -/
def planMarkerChar (c : Char) : Bool :=
  c = '-' || c = '*' || c = '•' || c = '[' || c = ']' || c = ' ' || c = 'x' ||
  ('0' ≤ c && c ≤ '9') || c = '.'

/-- `replace(/^[-*•\[\] x0-9\.]+\s*/, '')`: strips only on a match (at least
one marker character). -/
def stripPlanMarkers (l : List Char) : List Char :=
  match l with
  | c :: _ =>
    if planMarkerChar c then (l.dropWhile planMarkerChar).dropWhile isJsWs
    else l
  | [] => []

/-- `extractTasksFromPlan`. -/
def extractTasksFromPlan (planText : String) : List TodoTask :=
  (splitLines planText.data).filterMap (fun line =>
    let trimmed := trimChars line
    if bulletMatch trimmed || checkboxMatch trimmed || numberedMatch trimmed then
      let taskText := stripLeadingGlyph (stripPlanMarkers trimmed)
      let isCompleted := containsList (("[x]").data) trimmed ||
        containsList (("✅").data) trimmed
      let isInProgress := containsList (("⚙️").data) trimmed ||
        containsList (("in progress").data) (lowerChars trimmed)
      some
        { content := String.mk taskText
          status :=
            if isCompleted then "completed"
            else if isInProgress then "in_progress"
            else "pending"
          activeForm := "Working on " ++ String.mk taskText }
    else none)

/-- The character class of `replace(/^[-*•\[\] x]+\s*/, '')`. -/
def descMarkerChar (c : Char) : Bool :=
  c = '-' || c = '*' || c = '•' || c = '[' || c = ']' || c = ' ' || c = 'x'

/-- `replace(/^[-*•\[\] x]+\s*/, '')`. -/
def stripDescMarkers (l : List Char) : List Char :=
  match l with
  | c :: _ =>
    if descMarkerChar c then (l.dropWhile descMarkerChar).dropWhile isJsWs
    else l
  | [] => []

/-- `parseTasksFromDescription`. -/
def parseTasksFromDescription (description : String) : List TodoTask :=
  (splitLines description.data).filterMap (fun line =>
    let trimmed := trimChars line
    if bulletMatch trimmed || checkboxMatch trimmed then
      let taskText := stripDescMarkers trimmed
      let isCompleted := containsList (("[x]").data) trimmed ||
        containsList (("✅").data) trimmed
      some
        { content := String.mk taskText
          status := if isCompleted then "completed" else "pending"
          activeForm := "Working on " ++ String.mk taskText }
    else none)

/-- `getCurrentListName`: `getLists`, find the card's list, fall back to
`'Unknown'` (also on a caught failure or an empty name, via `||`). -/
def getCurrentListNameCall (o : Oracle) (card : TrelloCard) (log : Log) :
    String × Log :=
  let log1 := log ++ [RemoteCall.getLists]
  match o.getLists with
  | .error _ => ("Unknown", log1)
  | .ok lists =>
    (jsOrElse
      (match lists.find? (fun li => li.id == card.idList) with
       | some li => li.name
       | none => "")
      "Unknown", log1)

/-- One keyword→label mapping of `addRelevantLabels`. -/
structure LabelMapping where
  keywords : List String
  name : String
  color : String

/-- The `labelMappings` table. -/
def labelMappings : List LabelMapping :=
  [ { keywords := ["bug", "fix", "error", "issue"], name := "Bug", color := "red" }
  , { keywords := ["feature", "enhancement", "new"], name := "Feature", color := "green" }
  , { keywords := ["refactor", "cleanup", "optimization"], name := "Refactoring", color := "yellow" }
  , { keywords := ["test", "testing", "spec"], name := "Testing", color := "purple" }
  , { keywords := ["doc", "documentation", "readme"], name := "Documentation", color := "blue" }
  , { keywords := ["api", "endpoint", "service"], name := "API", color := "orange" }
  , { keywords := ["ui", "frontend", "component"], name := "Frontend", color := "pink" }
  , { keywords := ["backend", "database", "server"], name := "Backend", color := "lime" } ]

/-- `TrelloMCPClient.ensureLabel`: find a label by case-insensitive name or
create it. -/
def ensureLabelCall (o : Oracle) (name color : String) (log : Log) :
    Except String String × Log :=
  let log1 := log ++ [RemoteCall.getBoardLabels]
  match o.getBoardLabels with
  | .error e => (.error e, log1)
  | .ok labels =>
    match labels.find? (fun label =>
        lowerChars label.name.data == lowerChars name.data) with
    | some existingLabel => (.ok existingLabel.id, log1)
    | none =>
      let log2 := log1 ++ [RemoteCall.createLabel name color]
      match o.createLabel name color with
      | .error e => (.error e, log2)
      | .ok newLabel => (.ok newLabel.id, log2)

/-- `addRelevantLabels`: keyword scan, `ensureLabel` per hit (failures
caught and skipped), then `addLabelToCard` per collected id (failures
caught).  The surrounding `try/catch` makes the whole helper non-throwing,
so only the call log is extended. -/
def addRelevantLabels (o : Oracle) (cardId title content : String)
    (log : Log) : Log :=
  let titleLower := lowerChars title.data
  let contentLower := lowerChars content.data
  let collected := labelMappings.foldl
    (fun (acc : List String × Log) mapping =>
      if mapping.keywords.any (fun keyword =>
          containsList keyword.data titleLower ||
          containsList keyword.data contentLower) then
        match ensureLabelCall o mapping.name mapping.color acc.2 with
        | (.error _, log') => (acc.1, log')
        | (.ok labelId, log') => (acc.1 ++ [labelId], log')
      else acc)
    ([], log)
  collected.1.foldl
    (fun log' labelId => log' ++ [RemoteCall.addLabelToCard cardId labelId])
    collected.2

/-! ## Public slash-command operations (`src/slash-commands.ts`)

Each operation is embedded as its `try` body (`...Body`, returning
`Except String String` so a thrown error is an explicit `.error`) plus the
top-level `catch` producing the `❌ ...` outcome string.  State is the
session record and the call log. -/

/-- `RaveHubTrelloIntegration.initialize` → `TodoTrelloSync.initialize`:
connect, `autoDiscoverLists` (failures swallowed inside), `healthCheck`
(a caught `getBoard` failure yields `false`), and a throw when the health
check fails. -/
def integrationInitCall (o : Oracle) (log : Log) : Except String Unit × Log :=
  let log1 := log ++ [RemoteCall.connect]
  match o.connect with
  | .error e => (.error e, log1)
  | .ok _ =>
    let log2 := log1 ++ [RemoteCall.getLists]
    let log3 := log2 ++ [RemoteCall.getBoard]
    match o.getBoard with
    | .error _ =>
      (.error "Failed to access Trello board. Check your configuration.", log3)
    | .ok _ => (.ok (), log3)

/-- The success outcome string of `createCardFromPlan`. -/
def createCardOkMsg (card : TrelloCard) (tasks : List TodoTask) : String :=
  "✅ **Trello Card Created**\n\n**Card:** [" ++ card.name ++ "](" ++ card.url ++
  ")\n**ID:** " ++ card.id ++ "\n**List:** TODO 📚\n\n✨ **Enhanced features:**\n- ☑️ Checklist created with " ++
  toString tasks.length ++ " development tasks\n- 🏷️ Relevant labels automatically applied\n- 🔗 Linked to your current session\n\n**Next steps:**\n- `/trello-pickup " ++
  card.id ++ "` to work on this card (moves to DOING)\n- `/trello-update` to sync TodoWrite progress to checklist\n- `/trello-complete` when all work is finished"

/-- Continuation of `createCardFromPlan` after the optional checklist
creation: labels, session binding, outcome string. -/
def createCardFinish (o : Oracle) (st : SessionState) (now : String)
    (planText : Option String) (cardTitle : String) (card : TrelloCard)
    (tasks : List TodoTask) (log : Log) :
    Except String String × SessionState × Log :=
  let log' := addRelevantLabels o card.id cardTitle (jsOrEmpty planText) log
  let st1 := setActiveCard now card.id card.name (some tasks) st
  (.ok (createCardOkMsg card tasks), st1, log')

/-- `createCardFromPlan` try-body. -/
def createCardFromPlanBody (o : Oracle) (st : SessionState)
    (planText : Option String) (now : String) :
    Except String String × SessionState × Log :=
  match integrationInitCall o [] with
  | (.error e, log) => (.error e, st, log)
  | (.ok _, log0) =>
    let log1 := log0 ++ [RemoteCall.connect]
    match o.connect with
    | .error e => (.error e, st, log1)
    | .ok _ =>
      let cardTitle := jsOrElse (extractTitleFromPlan planText) "Development Task"
      let cardDescription := formatPlanAsDescription planText o.dateNow
      let log2 := log1 ++ [RemoteCall.createCard cardTitle cardDescription]
      match o.createCard cardTitle cardDescription with
      | .error e => (.error e, st, log2)
      | .ok card =>
        let tasks := extractTasksFromPlan (jsOrEmpty planText)
        if 0 < tasks.length then
          let taskNames := tasks.map (fun t => t.content)
          let log3 := log2 ++
            [RemoteCall.createChecklist card.id "Development Tasks" taskNames]
          match o.createChecklist card.id "Development Tasks" taskNames with
          | .error e => (.error e, st, log3)
          | .ok _ => createCardFinish o st now planText cardTitle card tasks log3
        else createCardFinish o st now planText cardTitle card tasks log2

/-- `createCardFromPlan` with its `catch`. -/
def createCardFromPlan (o : Oracle) (st : SessionState)
    (planText : Option String) (now : String) : String × SessionState × Log :=
  match createCardFromPlanBody o st planText now with
  | (.ok s, st', log) => (s, st', log)
  | (.error e, st', log) => ("❌ Failed to create Trello card: " ++ e, st', log)

/-- The multiple-search-results outcome of `pickupCard`. -/
def multiCardMsg (searchResults : List TrelloCard) : String :=
  "🔍 Multiple cards found. Please be more specific or use card ID:\n\n" ++
  String.intercalate "\n"
    ((searchResults.take 5).map (fun c =>
      "- [" ++ c.name ++ "](" ++ c.url ++ ") (" ++ c.id ++ ")")) ++
  "\n\nUse: `/trello-pickup <card-id>` with the specific ID"

/-- `pickupCard` from the point where the card (or no card) has been
resolved: optional move + pickup comment, task extraction, session binding,
outcome string. -/
def pickupResolved (o : Oracle) (st : SessionState) (cardIdentifier : String)
    (now : String) (card? : Option TrelloCard) (log : Log) :
    Except String String × SessionState × Log :=
  match card? with
  | none => (.ok ("❌ Card not found: \"" ++ cardIdentifier ++ "\""), st, log)
  | some card =>
    let inProgressListId := o.getListId "inProgress"
    let doMove := !jsFalsy inProgressListId &&
      card.idList != jsOrEmpty inProgressListId
    let afterMove := fun (log' : Log) =>
      let tasks := parseTasksFromDescription (jsOrEmpty card.desc)
      let st1 := setActiveCard now card.id card.name (some tasks) st
      let taskList :=
        if 0 < tasks.length then
          "\n\n**Extracted Tasks:**\n" ++ String.intercalate "\n"
            (tasks.map (fun t => "- " ++ t.content ++ " (" ++ t.status ++ ")"))
        else "\n\n*No structured tasks found in card description*"
      let listNameLog :=
        if doMove then ("DOING ⚙️", log') else getCurrentListNameCall o card log'
      let moveMessage :=
        if doMove then "\n🚀 **Automatically moved to DOING column**" else ""
      (Except.ok
        ("🎯 **Picked up Trello Card**\n\n**Card:** [" ++ card.name ++ "](" ++
         card.url ++ ")\n**Current List:** " ++ listNameLog.1 ++ moveMessage ++
         "\n**Description:** " ++ jsOrElse (jsOrEmpty card.desc) "*No description*" ++
         taskList ++
         "\n\n🔗 This card is now your active work item. Use:\n- Update your TodoWrite tasks and they'll sync to this card\n- `/trello-complete` when all work is finished"),
       st1, listNameLog.2)
    if doMove then
      let lid := jsOrEmpty inProgressListId
      let log1 := log ++ [RemoteCall.moveCard card.id lid]
      match o.moveCard card.id lid with
      | .error e => (.error e, st, log1)
      | .ok _ =>
        let pickupComment :=
          "🚀 **Card picked up for active work**\n\n*Moved to In Progress via Claude Code*"
        let log2 := log1 ++ [RemoteCall.addComment card.id pickupComment]
        match o.addComment card.id pickupComment with
        | .error e => (.error e, st, log2)
        | .ok _ => afterMove log2
    else afterMove log

/-- `pickupCard` try-body: resolve by id (with search fallback in the inner
`catch`) or by search (with the no-match and multiple-match early returns). -/
def pickupCardBody (o : Oracle) (st : SessionState) (cardIdentifier : String)
    (now : String) : Except String String × SessionState × Log :=
  let log1 := [RemoteCall.connect]
  match o.connect with
  | .error e => (.error e, st, log1)
  | .ok _ =>
    if cardIdentifier.length = 24 then
      let log2 := log1 ++ [RemoteCall.getCard cardIdentifier]
      match o.getCard cardIdentifier with
      | .ok card => pickupResolved o st cardIdentifier now (some card) log2
      | .error _ =>
        let log3 := log2 ++ [RemoteCall.searchCards cardIdentifier]
        match o.searchCards cardIdentifier with
        | .error e => (.error e, st, log3)
        | .ok searchResults =>
          pickupResolved o st cardIdentifier now searchResults.head? log3
    else
      let log2 := log1 ++ [RemoteCall.searchCards cardIdentifier]
      match o.searchCards cardIdentifier with
      | .error e => (.error e, st, log2)
      | .ok searchResults =>
        if searchResults.length = 0 then
          (.ok ("❌ No card found matching: \"" ++ cardIdentifier ++ "\""),
           st, log2)
        else if 1 < searchResults.length then
          (.ok (multiCardMsg searchResults), st, log2)
        else pickupResolved o st cardIdentifier now searchResults.head? log2

/-- `pickupCard` with its `catch`. -/
def pickupCard (o : Oracle) (st : SessionState) (cardIdentifier : String)
    (now : String) : String × SessionState × Log :=
  match pickupCardBody o st cardIdentifier now with
  | (.ok s, st', log) => (s, st', log)
  | (.error e, st', log) => ("❌ Failed to pickup card: " ++ e, st', log)

/-- `completeCard` try-body. -/
def completeCardBody (o : Oracle) (st : SessionState)
    (completionNote : Option String) : Except String String × SessionState × Log :=
  if jsFalsy st.currentCardId then
    (.ok "❌ No active Trello card in session. Use `/trello-pickup <card>` first.",
     st, [])
  else
    let cardId := jsOrEmpty st.currentCardId
    let cardName := st.currentCardName
    let log1 := [RemoteCall.connect]
    match o.connect with
    | .error e => (.error e, st, log1)
    | .ok _ =>
      if jsFalsy (o.getListId "done") then
        (.ok "❌ Could not find \"Done\" list on board. Please check board structure.",
         st, log1)
      else
        let doneListId := jsOrEmpty (o.getListId "done")
        let log2 := log1 ++ [RemoteCall.moveCard cardId doneListId]
        match o.moveCard cardId doneListId with
        | .error e => (.error e, st, log2)
        | .ok _ =>
          let completionComment := "✅ **Task Completed**" ++
            (if jsFalsy completionNote then ""
             else "\n\n" ++ jsOrEmpty completionNote) ++
            "\n\n*Completed via Claude Code integration*"
          let log3 := log2 ++ [RemoteCall.addComment cardId completionComment]
          match o.addComment cardId completionComment with
          | .error e => (.error e, st, log3)
          | .ok _ =>
            (.ok ("🎉 **Task Completed!**\n\n**Card:** " ++ jsShow cardName ++
              "\n**Status:** Moved to DONE! 🙌🏽\n**Comment:** Added completion note\n\n✨ Great work! The card is now marked as complete and the session has been cleared."),
             clearSession, log3)

/-- `completeCard` with its `catch`. -/
def completeCard (o : Oracle) (st : SessionState)
    (completionNote : Option String) : String × SessionState × Log :=
  match completeCardBody o st completionNote with
  | (.ok s, st', log) => (s, st', log)
  | (.error e, st', log) => ("❌ Failed to complete card: " ++ e, st', log)

/-- `showStatus` try-body. -/
def showStatusBody (o : Oracle) (st : SessionState) :
    Except String String × SessionState × Log :=
  if jsFalsy st.currentCardId then
    (.ok "📋 **Trello Session Status**\n\n**Active Card:** None\n**Status:** No card currently linked to session\n\nUse `/trello-create` to create a card from your current plan, or `/trello-pickup <card>` to work on an existing card.",
     st, [])
  else
    let cardId := jsOrEmpty st.currentCardId
    let log1 := [RemoteCall.connect]
    match o.connect with
    | .error e => (.error e, st, log1)
    | .ok _ =>
      let log2 := log1 ++ [RemoteCall.getCard cardId]
      match o.getCard cardId with
      | .error e => (.error e, st, log2)
      | .ok card =>
        let r := getCurrentListNameCall o card log2
        (.ok ("📋 **Trello Session Status**\n\n**Active Card:** [" ++ card.name ++
          "](" ++ card.url ++ ")\n**Current List:** " ++ r.1 ++ "\n**Card ID:** " ++
          card.id ++ "\n**Last Modified:** " ++ o.localeFormat card.dateLastActivity ++
          "\n\n**Available Commands:**\n- `/trello-complete` - Move card to Done\n- `/trello-pickup <other-card>` - Switch to different card\n\n**Description:**\n" ++
          jsOrElse (jsOrEmpty card.desc) "*No description*"),
         st, r.2)

/-- `showStatus` with its `catch`. -/
def showStatus (o : Oracle) (st : SessionState) : String × SessionState × Log :=
  match showStatusBody o st with
  | (.ok s, st', log) => (s, st', log)
  | (.error e, st', log) => ("❌ Failed to get status: " ++ e, st', log)

/-! ## Derived notions and concrete instances used by the theorems -/

/-- Predicate picking the `addComment` entries out of a call log. -/
def isCommentCall : RemoteCall → Bool
  | RemoteCall.addComment _ _ => true
  | _ => false

/-- The shape of every line list produced by `descLoop`: prose lines
(non-task lines emitted unchanged) and rendered blocks, each block
immediately followed by the terminator line it was inserted before. -/
inductive OutShape (tasks : List TodoTask) : List (List Char) → Prop
  | nil : OutShape tasks []
  | prose (l : List Char) (rest : List (List Char)) :
      isTaskL l = false → OutShape tasks rest → OutShape tasks (l :: rest)
  | block (l : List Char) (rest : List (List Char)) :
      isTermL l = true → OutShape tasks rest →
      OutShape tasks (renderAll tasks ++ l :: rest)

/-- A card fixture (mirroring the unit tests' mock card). -/
def sampleCard : TrelloCard :=
  { id := "card_123", name := "Test Card", desc := some ""
    idList := "list_in_progress", url := "https://trello.com/c/card123"
    dateLastActivity := "2024-01-01T00:00:00Z" }

/-- An oracle on which every remote call succeeds. -/
def okOracle : Oracle where
  connect := .ok ()
  getCard := fun _ => .ok sampleCard
  updateCard := fun _ _ _ => .ok sampleCard
  moveCard := fun _ _ => .ok sampleCard
  addComment := fun _ _ => .ok ()
  getCardChecklists := fun _ => .ok []
  updateChecklistItem := fun _ _ _ => .ok ()
  createCard := fun _ _ => .ok sampleCard
  createChecklist := fun _ _ _ => .ok ()
  searchCards := fun _ => .ok []
  getLists := .ok []
  getBoard := .ok ()
  getListId := fun _ => none
  getBoardLabels := .ok []
  createLabel := fun _ _ => .ok { id := "lb", name := "n", color := "c" }
  addLabelToCard := fun _ _ => .ok ()
  localeFormat := fun s => s
  dateNow := "0"

/-- An oracle whose `connect` fails (mirroring the unit tests' rejected
connection). -/
def failOracle : Oracle :=
  { okOracle with connect := .error "Connection failed" }

/-- A session with an active card (mirroring the unit tests). -/
def sessionWithCard : SessionState :=
  { currentCardId := some "card_123", currentCardName := some "Test Card" }

/-- The test batch: one completed, one in-progress, one pending task. -/
def threeTasks : List TodoTask :=
  [ { content := "a", status := "completed", activeForm := "x" }
  , { content := "b", status := "in_progress", activeForm := "y" }
  , { content := "c", status := "pending", activeForm := "z" } ]

/-- A single completed task used by several counterexamples. -/
def newTask : TodoTask :=
  { content := "new task", status := "completed", activeForm := "doing" }

/-! # Theorems -/

/-! ## Shape lemmas for the orchestrators -/

/-- With an active card, the checklist-variant sync ends in either the
`catch` outcome or the success outcome, and in both cases the session has
been replaced by `updateSessionTasks`. -/
theorem syncTasksChecklist_shape (o : Oracle) (sess : SessionState)
    (tasks : List TodoTask) (now : String)
    (h : jsFalsy sess.currentCardId = false) :
    (∃ e log, syncTasksChecklist o sess tasks now =
      (syncFailOutcome e, updateSessionTasks now tasks sess, log)) ∨
    (∃ log, syncTasksChecklist o sess tasks now =
      (syncOkOutcome tasks, updateSessionTasks now tasks sess, log)) := by
  unfold syncTasksChecklist
  rw [if_neg (by simp [h])]
  dsimp only
  repeat' split
  all_goals first
    | exact .inl ⟨_, _, rfl⟩
    | exact .inr ⟨_, rfl⟩

/-- With an active card, the description-only sync ends in the `catch`
outcome or succeeds with the exact four-call log. -/
theorem syncTasksDescOnly_shape (o : Oracle) (sess : SessionState)
    (tasks : List TodoTask) (now : String)
    (h : jsFalsy sess.currentCardId = false) :
    (∃ e log, syncTasksDescOnly o sess tasks now =
      (syncFailOutcome e, updateSessionTasks now tasks sess, log)) ∨
    (∃ card, o.getCard (jsOrEmpty sess.currentCardId) = .ok card ∧
      syncTasksDescOnly o sess tasks now =
        (syncOkOutcome tasks, updateSessionTasks now tasks sess,
          [RemoteCall.connect, RemoteCall.getCard (jsOrEmpty sess.currentCardId),
           RemoteCall.updateCard (jsOrEmpty sess.currentCardId) none
             (generateUpdatedDescription (jsOrEmpty card.desc) tasks),
           RemoteCall.addComment (jsOrEmpty sess.currentCardId)
             (progressUpdateMsg tasks)])) := by
  unfold syncTasksDescOnly
  rw [if_neg (by simp [h])]
  dsimp only
  repeat' split
  all_goals first
    | exact .inl ⟨_, _, rfl⟩
    | exact .inr ⟨_, by assumption, rfl⟩

/-- The session write performed before any remote call, when a card is
active. -/
theorem updateSessionTasks_linked (sess : SessionState) (tasks : List TodoTask)
    (now : String) (h : jsFalsy sess.currentCardId = false) :
    (updateSessionTasks now tasks sess).linkedTasks = some tasks := by
  simp [updateSessionTasks, h, saveSession]

/-! ## C10 -/

/-- C10: every public session operation preserves the invariant that a
session with a tracked-task list present also has an active card id
present, and `updateSessionTasks` leaves the session entirely unchanged
when no active card id is set. -/
theorem c10_session_invariant (s : SessionState) (now cardId cardName : String)
    (tasks? : Option (List TodoTask)) (tasks : List TodoTask)
    (h : s.linkedTasks.isSome → s.currentCardId.isSome) :
    ((setActiveCard now cardId cardName tasks? s).linkedTasks.isSome →
      (setActiveCard now cardId cardName tasks? s).currentCardId.isSome) ∧
    ((updateSessionTasks now tasks s).linkedTasks.isSome →
      (updateSessionTasks now tasks s).currentCardId.isSome) ∧
    (clearSession.linkedTasks.isSome → clearSession.currentCardId.isSome) ∧
    (s.currentCardId = none → updateSessionTasks now tasks s = s) := by
  refine ⟨?_, ?_, ?_, ?_⟩
  · intro _
    simp [setActiveCard, saveSession]
  · unfold updateSessionTasks
    by_cases hf : jsFalsy s.currentCardId
    · simpa [hf] using h
    · intro _
      simp only [if_neg hf, saveSession]
      cases hc : s.currentCardId with
      | none => simp [jsFalsy, hc] at hf
      | some v => simp
  · simp [clearSession]
  · intro hnone
    simp [updateSessionTasks, jsFalsy, hnone]

/-- C10 witness: with no active card id, `updateSessionTasks` is the
identity on the empty session. -/
theorem c10_session_invariant_witness :
    updateSessionTasks "now" [newTask] {} = ({} : SessionState) :=
  (c10_session_invariant {} "now" "c" "n" none [newTask] (by simp)).2.2.2 rfl

/-! ## C2 -/

/-- C2 counterexample: with an active card and a failing connect, the sync
returns a failure outcome, yet the persisted session is *not* the pre-sync
one — its tracked-task snapshot has already been replaced by the new batch
(the source calls `updateSessionTasks(tasks)` before any remote call). -/
theorem c2_counterexample :
    (syncTasksChecklist failOracle sessionWithCard [newTask] "now").1.success = false ∧
    (syncTasksChecklist failOracle sessionWithCard [newTask] "now").2.1 ≠ sessionWithCard ∧
    (syncTasksChecklist failOracle sessionWithCard [newTask] "now").2.1.linkedTasks = some [newTask] := by
  decide

/-- C2 amended: when a remote call fails during `syncTasks` (with an active
card), the outcome is `{success := false}` carrying the error message, but
the session is the *updated* one: its tracked-task snapshot is the new
batch, written before the first remote call, not the last known-good
snapshot. -/
theorem c2_failure_outcome_and_session (o : Oracle) (sess : SessionState)
    (tasks : List TodoTask) (now : String)
    (hcard : jsFalsy sess.currentCardId = false)
    (hfail : (syncTasksChecklist o sess tasks now).1.success = false) :
    (syncTasksChecklist o sess tasks now).1.error.isSome = true ∧
    (syncTasksChecklist o sess tasks now).2.1.linkedTasks = some tasks := by
  rcases syncTasksChecklist_shape o sess tasks now hcard with ⟨e, log, heq⟩ | ⟨log, heq⟩
  · rw [heq]
    exact ⟨rfl, updateSessionTasks_linked sess tasks now hcard⟩
  · rw [heq] at hfail
    simp [syncOkOutcome] at hfail

/-- C2 witness at a concrete failing oracle. -/
theorem c2_failure_outcome_and_session_witness :
    (syncTasksChecklist failOracle sessionWithCard [newTask] "now").1.error.isSome = true ∧
    (syncTasksChecklist failOracle sessionWithCard [newTask] "now").2.1.linkedTasks = some [newTask] :=
  c2_failure_outcome_and_session failOracle sessionWithCard [newTask] "now"
    (by decide) (by decide)

/-! ## C4 -/

/-- C4 counterexample: with no active card the outcome carries *no* `total`
field at all (`undefined`), not `total = 0`. -/
theorem c4_counterexample :
    (syncTasksChecklist okOracle {} [newTask] "now").1.total = none ∧
    (syncTasksChecklist okOracle {} [newTask] "now").1.total ≠ some 0 ∧
    (syncTasksChecklist okOracle {} [newTask] "now").1.success = true := by
  decide

/-- C4 amended: with no active card id in the session, `syncTasks` returns
`{success: true, message: "No active card"}` with `completed`, `total` and
`error` all absent, issues zero remote calls, and leaves the session
unchanged. -/
theorem c4_no_active_card (o : Oracle) (sess : SessionState)
    (tasks : List TodoTask) (now : String) (h : sess.currentCardId = none) :
    syncTasksChecklist o sess tasks now =
      ({ success := true, message := "No active card" }, sess, []) := by
  unfold syncTasksChecklist
  rw [if_pos (by simp [jsFalsy, h])]

/-- C4 witness on the empty session. -/
theorem c4_no_active_card_witness :
    syncTasksChecklist okOracle {} [newTask] "now" =
      ({ success := true, message := "No active card" }, ({} : SessionState), ([] : Log)) :=
  c4_no_active_card okOracle {} [newTask] "now" rfl

/-! ## C8 -/

/-- C8 counterexample: an unrecognized status does not fail — the mapper's
`default` branch resolves it to the todo list, and the icon mapper to 📋. -/
theorem c8_counterexample :
    getTargetListId
      { listIds := some ⟨some "list_todo_123", some "list_progress_456",
          none, some "list_done_789"⟩ }
      "cancelled" = some "list_todo_123" ∧
    getStatusIcon "cancelled" = "📋" := by
  decide

/-- C8 amended: `pending`, `in_progress` and `completed` map to the todo,
inProgress and done lists; every other status value falls back to the todo
list (and the status-icon mapper renders 📋) — no `InvalidStatus` failure
exists. -/
theorem c8_status_fallback (config : TrelloConfig) (status : String)
    (h : status ≠ "pending" ∧ status ≠ "in_progress" ∧ status ≠ "completed") :
    getTargetListId config "pending" = config.listIds.bind (fun li => li.todo) ∧
    getTargetListId config "in_progress" = config.listIds.bind (fun li => li.inProgress) ∧
    getTargetListId config "completed" = config.listIds.bind (fun li => li.done) ∧
    getTargetListId config status = config.listIds.bind (fun li => li.todo) ∧
    getStatusIcon status = "📋" := by
  obtain ⟨h1, h2, h3⟩ := h
  refine ⟨rfl, by simp [getTargetListId], by simp [getTargetListId], ?_, ?_⟩
  · simp [getTargetListId, h1, h2, h3]
  · simp [getStatusIcon, h2, h3]

/-- C8 witness at the status `"cancelled"`. -/
theorem c8_status_fallback_witness :
    getTargetListId { listIds := some { todo := some "t1" } } "cancelled" = some "t1" ∧
    getStatusIcon "cancelled" = "📋" := by
  have h := c8_status_fallback { listIds := some { todo := some "t1" } } "cancelled"
    ⟨by decide, by decide, by decide⟩
  exact ⟨h.2.2.2.1, h.2.2.2.2⟩

/-! ## C6 -/

/-- C6 counterexample: on a successful sync of a 1-completed /
1-in-progress / 1-pending batch, the single posted progress comment's text
is `"📊 **Progress Update:** 1/3 completed (1 in progress)"`, not the bare
`"1/3 completed (1 in progress)"` (and the checklist-syncing variant posts
no comment at all for this batch, since `completed = 1` is odd and below
the total). -/
theorem c6_counterexample :
    (syncTasksDescOnly okOracle sessionWithCard threeTasks "now").1.success = true ∧
    (syncTasksDescOnly okOracle sessionWithCard threeTasks "now").2.2.filter isCommentCall =
      [RemoteCall.addComment "card_123"
        "📊 **Progress Update:** 1/3 completed (1 in progress)"] ∧
    ("📊 **Progress Update:** 1/3 completed (1 in progress)" : String) ≠
      "1/3 completed (1 in progress)" ∧
    (syncTasksChecklist okOracle sessionWithCard threeTasks "now").2.2.filter isCommentCall =
      ([] : Log) := by
  decide

/-- C6 amended: for every batch with exactly one completed, one in-progress
task and three tasks in total, a successful description-only sync posts
exactly one progress comment, whose text is exactly
`"📊 **Progress Update:** 1/3 completed (1 in progress)"`. -/
theorem c6_progress_comment (o : Oracle) (sess : SessionState)
    (tasks : List TodoTask) (now : String)
    (hcard : jsFalsy sess.currentCardId = false)
    (hc : completedCount tasks = 1) (hp : inProgressCount tasks = 1)
    (hl : tasks.length = 3)
    (hok : (syncTasksDescOnly o sess tasks now).1.success = true) :
    (syncTasksDescOnly o sess tasks now).2.2.filter isCommentCall =
      [RemoteCall.addComment (jsOrEmpty sess.currentCardId)
        "📊 **Progress Update:** 1/3 completed (1 in progress)"] := by
  rcases syncTasksDescOnly_shape o sess tasks now hcard with ⟨e, log, heq⟩ | ⟨card, hcd, heq⟩
  · rw [heq] at hok
    simp [syncFailOutcome] at hok
  · rw [heq]
    have hmsg : progressUpdateMsg tasks =
        "📊 **Progress Update:** 1/3 completed (1 in progress)" := by
      unfold progressUpdateMsg
      rw [hc, hp, hl]
      decide
    simp [isCommentCall, hmsg]

/-- C6 witness at the all-success oracle and the three-task batch. -/
theorem c6_progress_comment_witness :
    (syncTasksDescOnly okOracle sessionWithCard threeTasks "now").2.2.filter isCommentCall =
      [RemoteCall.addComment (jsOrEmpty sessionWithCard.currentCardId)
        "📊 **Progress Update:** 1/3 completed (1 in progress)"] :=
  c6_progress_comment okOracle sessionWithCard threeTasks "now"
    (by decide) (by decide) (by decide) (by decide) (by decide)

/-! ## C7 -/

/-- C7: every public operation is its `try` body wrapped in a boundary
`catch`: a thrown error surfaces as the operation's explicit failure
outcome embedding the error's message, a normal return passes through, and
`syncTasks` always yields one of its three explicit structured outcomes
(no-op success, failure-with-error, success) — no exception escapes any
operation. -/
theorem c7_explicit_outcomes (o : Oracle) (st : SessionState)
    (planText completionNote : Option String) (cardIdentifier now : String)
    (tasks : List TodoTask) :
    (∀ e st1 log, createCardFromPlanBody o st planText now = (.error e, st1, log) →
      createCardFromPlan o st planText now =
        ("❌ Failed to create Trello card: " ++ e, st1, log)) ∧
    (∀ v st1 log, createCardFromPlanBody o st planText now = (.ok v, st1, log) →
      createCardFromPlan o st planText now = (v, st1, log)) ∧
    (∀ e st1 log, pickupCardBody o st cardIdentifier now = (.error e, st1, log) →
      pickupCard o st cardIdentifier now =
        ("❌ Failed to pickup card: " ++ e, st1, log)) ∧
    (∀ v st1 log, pickupCardBody o st cardIdentifier now = (.ok v, st1, log) →
      pickupCard o st cardIdentifier now = (v, st1, log)) ∧
    (∀ e st1 log, completeCardBody o st completionNote = (.error e, st1, log) →
      completeCard o st completionNote =
        ("❌ Failed to complete card: " ++ e, st1, log)) ∧
    (∀ v st1 log, completeCardBody o st completionNote = (.ok v, st1, log) →
      completeCard o st completionNote = (v, st1, log)) ∧
    (∀ e st1 log, showStatusBody o st = (.error e, st1, log) →
      showStatus o st = ("❌ Failed to get status: " ++ e, st1, log)) ∧
    (∀ v st1 log, showStatusBody o st = (.ok v, st1, log) →
      showStatus o st = (v, st1, log)) ∧
    ((syncTasksChecklist o st tasks now).1 =
        { success := true, message := "No active card" } ∨
     (∃ e, (syncTasksChecklist o st tasks now).1 = syncFailOutcome e) ∨
     (syncTasksChecklist o st tasks now).1 = syncOkOutcome tasks) := by
  refine ⟨?_, ?_, ?_, ?_, ?_, ?_, ?_, ?_, ?_⟩
  · intro e st1 log h; unfold createCardFromPlan; rw [h]
  · intro v st1 log h; unfold createCardFromPlan; rw [h]
  · intro e st1 log h; unfold pickupCard; rw [h]
  · intro v st1 log h; unfold pickupCard; rw [h]
  · intro e st1 log h; unfold completeCard; rw [h]
  · intro v st1 log h; unfold completeCard; rw [h]
  · intro e st1 log h; unfold showStatus; rw [h]
  · intro v st1 log h; unfold showStatus; rw [h]
  · cases hb : jsFalsy st.currentCardId with
    | true =>
      left
      unfold syncTasksChecklist
      rw [if_pos hb]
    | false =>
      rcases syncTasksChecklist_shape o st tasks now hb with ⟨e, log, heq⟩ | ⟨log, heq⟩
      · exact .inr (.inl ⟨e, by rw [heq]⟩)
      · exact .inr (.inr (by rw [heq]))

/-- C7 witness: a failing connect inside `completeCard` is returned as the
explicit failure string, not thrown. -/
theorem c7_explicit_outcomes_witness :
    completeCard failOracle sessionWithCard none =
      ("❌ Failed to complete card: Connection failed", sessionWithCard,
        [RemoteCall.connect]) :=
  (c7_explicit_outcomes failOracle sessionWithCard none none "x" "now" []).2.2.2.2.1
    "Connection failed" sessionWithCard [RemoteCall.connect] rfl

/-! ## Checklist lemmas, C9 and C5 -/

/-- A matched checklist item is one of the fetched items (every tier is a
`find?` over `checkItems`). -/
theorem findMatching_mem {items : List CheckItem} {content : String}
    {m : CheckItem} (h : findMatchingChecklistItem items content = some m) :
    m ∈ items := by
  unfold findMatchingChecklistItem at h
  dsimp only at h
  rcases h1 : items.find?
      (fun item => cleanTaskContent item.name == cleanTaskContent content) with _ | m1
  · rw [h1] at h
    rcases h2 : items.find? (fun item =>
        containsList (cleanTaskContent content).data (cleanTaskContent item.name).data ||
        containsList (cleanTaskContent item.name).data (cleanTaskContent content).data) with _ | m2
    · rw [h2] at h
      exact List.mem_of_find?_eq_some h
    · rw [h2] at h
      cases h
      exact List.mem_of_find?_eq_some h2
  · rw [h1] at h
    cases h
    exact List.mem_of_find?_eq_some h1

/-- When a task's normalized content matches exactly one item, the exact
tier resolves to that item. -/
theorem findMatching_exact {items : List CheckItem} {content : String}
    {i : CheckItem} (hi : i ∈ items)
    (heq : cleanTaskContent i.name = cleanTaskContent content)
    (huni : ∀ j ∈ items,
      cleanTaskContent j.name = cleanTaskContent content → j = i) :
    findMatchingChecklistItem items content = some i := by
  unfold findMatchingChecklistItem
  dsimp only
  rcases hfind : items.find?
      (fun item => cleanTaskContent item.name == cleanTaskContent content) with _ | m
  · rw [List.find?_eq_none] at hfind
    exact absurd (by simpa using heq) (hfind i hi)
  · have hpm := List.find?_some hfind
    have hmem := List.mem_of_find?_eq_some hfind
    have hm : m = i := huni m hmem (by simpa using hpm)
    rw [hfind]
    exact congrArg some hm

/-- With one checklist, the issued calls are the per-task `filterMap`. -/
theorem checklistCalls_single (cl : Checklist) (tasks : List TodoTask) :
    checklistCalls [cl] tasks = tasks.filterMap (taskCall cl.checkItems) := by
  simp [checklistCalls]

/-- C9: for an item whose fetched completion state already agrees with
every task matched to it, the checklist reconciler issues no
`updateChecklistItem` call naming that item. -/
theorem c9_no_spurious_writes (checklists : List Checklist)
    (tasks : List TodoTask) (i : CheckItem)
    (hagree : ∀ cl ∈ checklists, ∀ t ∈ tasks, ∀ m ∈ cl.checkItems,
      findMatchingChecklistItem cl.checkItems t.content = some m → m.id = i.id →
      (m.state == "complete") = (t.status == "completed")) :
    ∀ c ∈ checklistCalls checklists tasks, c.1 ≠ i.id := by
  intro c hc hceq
  unfold checklistCalls at hc
  rcases List.mem_flatMap.mp hc with ⟨cl, hcl, hmem⟩
  rcases List.mem_filterMap.mp hmem with ⟨t, ht, htc⟩
  unfold taskCall at htc
  rcases hf : findMatchingChecklistItem cl.checkItems t.content with _ | m
  · rw [hf] at htc
    exact Option.noConfusion htc
  · rw [hf] at htc
    dsimp only at htc
    by_cases hd : ((t.status == "completed") != (m.state == "complete")) = true
    · rw [if_pos hd] at htc
      injection htc with hc2
      rw [← hc2] at hceq
      have hag := hagree cl hcl t ht m (findMatching_mem hf) hf hceq
      rw [bne_iff_ne] at hd
      exact hd hag.symm
    · rw [if_neg hd] at htc
      exact Option.noConfusion htc

/-- C9 witness: in a scenario with one already-agreeing item (`i1`) and one
disagreeing item (`i2`), the only issued call names `i2`, so applying the
theorem to the issued call yields that it does not name `i1`. -/
theorem c9_no_spurious_writes_witness : ("i2" : String) ≠ "i1" :=
  c9_no_spurious_writes
    [⟨"cl1", "Dev", [⟨"i1", "alpha", "complete"⟩, ⟨"i2", "beta", "incomplete"⟩]⟩]
    [⟨"alpha", "completed", "x"⟩, ⟨"beta", "completed", "y"⟩]
    ⟨"i1", "alpha", "complete"⟩
    (by decide) ("i2", true) (by decide)

/-- One `updateChecklistItem` call through `find?`: the call rewrites only
the state of items carrying its id. -/
theorem find?_applyCall (items : List CheckItem) (c : String × Bool) (x : String) :
    (applyCall items c).find? (fun i => i.id == x) =
      (items.find? (fun i => i.id == x)).map
        (fun i => if i.id == c.1 then
          { i with state := if c.2 then "complete" else "incomplete" }
        else i) := by
  unfold applyCall
  rw [List.find?_map]
  have hp : ((fun i : CheckItem => i.id == x) ∘ (fun i =>
      if i.id == c.1 then
        { i with state := if c.2 then "complete" else "incomplete" }
      else i)) = (fun i : CheckItem => i.id == x) := by
    funext i
    by_cases h : (i.id == c.1) = true <;> simp [Function.comp, h]
  rw [hp]

/-- A call sequence through `find?`: the found item's state is the left
fold of the calls naming its id. -/
theorem find?_applyCalls (calls : List (String × Bool)) (items : List CheckItem)
    (x : String) :
    (applyCalls items calls).find? (fun i => i.id == x) =
      (items.find? (fun i => i.id == x)).map
        (fun i => { i with state := (calls.foldl
          (fun s c => if c.1 == x then (if c.2 then "complete" else "incomplete") else s)
          i.state) }) := by
  induction calls generalizing items with
  | nil =>
    rcases h : items.find? (fun i => i.id == x) with _ | i
    · simp [applyCalls, h]
    · obtain ⟨iid, iname, istate⟩ := i
      simp [applyCalls, h]
  | cons c cs ih =>
    have h1 : applyCalls items (c :: cs) = applyCalls (applyCall items c) cs := rfl
    rw [h1, ih (applyCall items c), find?_applyCall, Option.map_map]
    simp only [List.foldl_cons]
    rcases h : items.find? (fun i => i.id == x) with _ | i
    · rw [h]
      rfl
    · have hix : i.id = x := by simpa using List.find?_some h
      rw [h]
      simp only [Option.map_some', Function.comp]
      by_cases hcx : (c.1 == x) = true
      · have hc1 : c.1 = x := by simpa using hcx
        have hic : (i.id == c.1) = true := by simp [hix, hc1]
        simp [hic, hcx]
      · have hc1 : ¬ c.1 = x := by simpa using hcx
        have hic : (i.id == c.1) = false := by
          simp [hix]
          exact fun hx => hc1 hx.symm
        simp [hic, hcx]

/-- With pairwise-distinct item ids, `find?` by an item's id returns that
item. -/
theorem find?_byId_self {items : List CheckItem} {i : CheckItem} (hi : i ∈ items)
    (hinj : ∀ a ∈ items, ∀ b ∈ items, a.id = b.id → a = b) :
    items.find? (fun j => j.id == i.id) = some i := by
  rcases h : items.find? (fun j => j.id == i.id) with _ | m
  · rw [List.find?_eq_none] at h
    exact absurd (by simp) (h i hi)
  · have hm := List.find?_some h
    have hmem := List.mem_of_find?_eq_some h
    rw [h]
    exact congrArg some (hinj m hmem i hi (by simpa using hm))

/-- A fold over calls none of which name the id leaves the state alone. -/
theorem foldl_state_no_target (calls : List (String × Bool)) (x s0 : String)
    (h : ∀ c ∈ calls, c.1 ≠ x) :
    calls.foldl
      (fun s c => if c.1 == x then (if c.2 then "complete" else "incomplete") else s)
      s0 = s0 := by
  induction calls generalizing s0 with
  | nil => rfl
  | cons c cs ih =>
    rw [List.foldl_cons, if_neg (by simpa using h c (.head _))]
    exact ih s0 (fun d hd => h d (.tail _ hd))

/-- Once the state is the rendered value, further calls that all carry the
same value keep it. -/
theorem foldl_state_from_target (calls : List (String × Bool)) (x : String)
    (b : Bool) (hall : ∀ c ∈ calls, c.1 = x → c.2 = b) :
    calls.foldl
      (fun s c => if c.1 == x then (if c.2 then "complete" else "incomplete") else s)
      (if b then "complete" else "incomplete") =
      (if b then "complete" else "incomplete") := by
  induction calls with
  | nil => rfl
  | cons c cs ih =>
    rw [List.foldl_cons]
    by_cases hcx : c.1 = x
    · rw [if_pos (by simpa using hcx), hall c (.head _) hcx]
      exact ih (fun d hd => hall d (.tail _ hd))
    · rw [if_neg (by simpa using hcx)]
      exact ih (fun d hd => hall d (.tail _ hd))

/-- A fold over calls that include one naming the id, all with the same
value, ends in that rendered value. -/
theorem foldl_state_const_target (calls : List (String × Bool)) (x s0 : String)
    (b : Bool) (hall : ∀ c ∈ calls, c.1 = x → c.2 = b)
    (hex : ∃ c ∈ calls, c.1 = x) :
    calls.foldl
      (fun s c => if c.1 == x then (if c.2 then "complete" else "incomplete") else s)
      s0 = (if b then "complete" else "incomplete") := by
  revert hall hex
  induction calls generalizing s0 with
  | nil =>
    intro _ hex
    rcases hex with ⟨c, hc, _⟩
    cases hc
  | cons c cs ih =>
    intro hall hex
    rw [List.foldl_cons]
    by_cases hcx : c.1 = x
    · rw [if_pos (by simpa using hcx), hall c (.head _) hcx]
      exact foldl_state_from_target cs x b (fun d hd => hall d (.tail _ hd))
    · rw [if_neg (by simpa using hcx)]
      refine ih s0 (fun d hd => hall d (.tail _ hd)) ?_
      rcases hex with ⟨d, hd, hdx⟩
      cases hd with
      | head => exact absurd hdx hcx
      | tail _ h' => exact ⟨d, h', hdx⟩

/-! ## C5 -/

/-- C5 counterexample: the claim's hypothesis holds (each task's normalized
content equals the normalized name of exactly one item — both tasks match
the sole item, `"foo!"` normalizing to `"foo"`), yet after reconciliation
the item matched by the pending task is complete, because the completed
task's earlier write is invisible to the later task's stale-state check. -/
theorem c5_counterexample :
    cleanTaskContent "foo!" = cleanTaskContent "foo" ∧
    findMatchingChecklistItem [⟨"i1", "foo", "incomplete"⟩] "foo!" =
      some ⟨"i1", "foo", "incomplete"⟩ ∧
    itemStateById
      (applyCalls [⟨"i1", "foo", "incomplete"⟩]
        (checklistCalls [⟨"cl1", "Dev", [⟨"i1", "foo", "incomplete"⟩]⟩]
          [⟨"foo", "completed", "a"⟩, ⟨"foo!", "pending", "b"⟩])) "i1" =
      some true ∧
    (("pending" : String) == "completed") = false := by
  decide

/-- C5 amended: checklist convergence holds for a card with a single
checklist whose item ids are pairwise distinct, when each task's normalized
content matches the normalized name of exactly one item and distinct tasks
have distinct normalized contents: after the issued updates each matched
item's completion flag equals `task.status == completed`. -/
theorem c5_checklist_convergence (cl : Checklist) (tasks : List TodoTask)
    (hids : ∀ a ∈ cl.checkItems, ∀ b ∈ cl.checkItems, a.id = b.id → a = b)
    (huniq : ∀ t ∈ tasks, ∃ j ∈ cl.checkItems,
      cleanTaskContent j.name = cleanTaskContent t.content ∧
      ∀ k ∈ cl.checkItems, cleanTaskContent k.name = cleanTaskContent t.content → k = j)
    (hinj : ∀ a ∈ tasks, ∀ b ∈ tasks,
      cleanTaskContent a.content = cleanTaskContent b.content → a = b) :
    ∀ t ∈ tasks, ∀ i ∈ cl.checkItems,
      cleanTaskContent i.name = cleanTaskContent t.content →
      itemStateById (applyCalls cl.checkItems (checklistCalls [cl] tasks)) i.id =
        some (t.status == "completed") := by
  intro t ht i hi heq
  have huni_i : ∀ j ∈ cl.checkItems,
      cleanTaskContent j.name = cleanTaskContent t.content → j = i := by
    intro j hj hjeq
    rcases huniq t ht with ⟨j0, hj0, hj0eq, hj0uni⟩
    rw [hj0uni j hj hjeq, hj0uni i hi heq]
  have hfind : findMatchingChecklistItem cl.checkItems t.content = some i :=
    findMatching_exact hi heq huni_i
  have htarget : ∀ c ∈ tasks.filterMap (taskCall cl.checkItems), c.1 = i.id →
      c.2 = (t.status == "completed") := by
    intro c hc hcx
    rcases List.mem_filterMap.mp hc with ⟨t', ht', htc⟩
    rcases huniq t' ht' with ⟨i', hi', heq', huni'⟩
    have hfind' : findMatchingChecklistItem cl.checkItems t'.content = some i' :=
      findMatching_exact hi' heq' huni'
    unfold taskCall at htc
    rw [hfind'] at htc
    dsimp only at htc
    by_cases hd : ((t'.status == "completed") != (i'.state == "complete")) = true
    · rw [if_pos hd] at htc
      injection htc with hc2
      rw [← hc2] at hcx
      have hii : i' = i := hids i' hi' i hi hcx
      have hcc : cleanTaskContent t'.content = cleanTaskContent t.content := by
        rw [← heq', hii, heq]
      have htt : t' = t := hinj t' ht' t ht hcc
      rw [← hc2, htt]
    · rw [if_neg hd] at htc
      exact Option.noConfusion htc
  unfold itemStateById
  rw [checklistCalls_single, find?_applyCalls, find?_byId_self hi hids]
  simp only [Option.map_some']
  by_cases hag : (t.status == "completed") = (i.state == "complete")
  · have hno : ∀ c ∈ tasks.filterMap (taskCall cl.checkItems), c.1 ≠ i.id := by
      intro c hc hcx
      rcases List.mem_filterMap.mp hc with ⟨t', ht', htc⟩
      rcases huniq t' ht' with ⟨i', hi', heq', huni'⟩
      have hfind' : findMatchingChecklistItem cl.checkItems t'.content = some i' :=
        findMatching_exact hi' heq' huni'
      unfold taskCall at htc
      rw [hfind'] at htc
      dsimp only at htc
      by_cases hd : ((t'.status == "completed") != (i'.state == "complete")) = true
      · rw [if_pos hd] at htc
        injection htc with hc2
        rw [← hc2] at hcx
        have hii : i' = i := hids i' hi' i hi hcx
        have hcc : cleanTaskContent t'.content = cleanTaskContent t.content := by
          rw [← heq', hii, heq]
        have htt : t' = t := hinj t' ht' t ht hcc
        rw [bne_iff_ne] at hd
        rw [htt, hii] at hd
        exact hd hag
      · rw [if_neg hd] at htc
        exact Option.noConfusion htc
    rw [foldl_state_no_target _ _ _ hno]
    exact congrArg some hag.symm
  · have hd : ((t.status == "completed") != (i.state == "complete")) = true := by
      simpa [bne_iff_ne] using hag
    have hmem : (i.id, (t.status == "completed")) ∈
        tasks.filterMap (taskCall cl.checkItems) := by
      apply List.mem_filterMap.mpr
      refine ⟨t, ht, ?_⟩
      unfold taskCall
      rw [hfind]
      dsimp only
      rw [if_pos hd]
    rw [foldl_state_const_target _ _ _ (t.status == "completed") htarget
      ⟨_, hmem, rfl⟩]
    by_cases hb : (t.status == "completed") = true <;> simp [hb]

/-- C5 witness: Scenario C — the exactly-matching item is set completed. -/
theorem c5_checklist_convergence_witness :
    itemStateById
      (applyCalls
        [⟨"i1", "Create login endpoint", "incomplete"⟩, ⟨"i2", "Write tests", "incomplete"⟩]
        (checklistCalls
          [⟨"cl1", "Dev",
            [⟨"i1", "Create login endpoint", "incomplete"⟩, ⟨"i2", "Write tests", "incomplete"⟩]⟩]
          [⟨"create login endpoint", "completed", "x"⟩])) "i1" = some true :=
  c5_checklist_convergence
    ⟨"cl1", "Dev",
      [⟨"i1", "Create login endpoint", "incomplete"⟩, ⟨"i2", "Write tests", "incomplete"⟩]⟩
    [⟨"create login endpoint", "completed", "x"⟩]
    (by decide) (by decide) (by decide)
    ⟨"create login endpoint", "completed", "x"⟩ (by decide)
    ⟨"i1", "Create login endpoint", "incomplete"⟩ (by decide) (by decide)

/-! ## Description-reconciler lemmas -/

/-- A terminator line (on its trimmed form) is never a task line: a blank
line matches neither regex, a `#`-led line has no bullet or `[` head, and a
`---`-led line has no whitespace after its bullet. -/
theorem isTermTrim_not_task (t : List Char) (h : isTermTrim t = true) :
    isTaskLineTrim t = false := by
  rcases t with _ | ⟨c0, rest⟩
  · rfl
  · have h' : startsList ['#'] (c0 :: rest) = true ∨
        startsList ['-', '-', '-'] (c0 :: rest) = true := by
      simpa [isTermTrim] using h
    rcases h' with h1 | h2
    · have hc : c0 = '#' := by
        have := by simpa [startsList] using h1
        exact this.symm
      subst hc
      rcases rest with _ | ⟨c1, _ | ⟨c2, _ | ⟨c3, r⟩⟩⟩ <;> rfl
    · rcases rest with _ | ⟨c1, rest1⟩
      · simp [startsList] at h2
      · rcases rest1 with _ | ⟨c2, rest2⟩
        · simp [startsList] at h2
        · have hc : c0 = '-' ∧ c1 = '-' ∧ c2 = '-' := by
            have := by simpa [startsList] using h2
            exact ⟨this.1.symm, this.2.1.symm, this.2.2.symm⟩
          obtain ⟨e0, e1, e2⟩ := hc
          subst e0; subst e1; subst e2
          rcases rest2 with _ | ⟨c3, r⟩ <;> rfl

/-- Terminator lines are not task lines (raw-line form). -/
theorem isTermL_not_task (l : List Char) (h : isTermL l = true) :
    isTaskL l = false :=
  isTermTrim_not_task (trimChars l) h

/-- A line of the shape `- <something with a non-whitespace character>`
trims to a bullet task line. -/
theorem isTaskL_cons_bullet (rest : List Char)
    (hx : ∃ x ∈ rest, isJsWs x = false) :
    isTaskL ('-' :: ' ' :: rest) = true := by
  unfold isTaskL trimChars
  have hstep1 : (('-' :: ' ' :: rest).dropWhile isJsWs) = '-' :: ' ' :: rest := by
    rw [List.dropWhile_cons, if_neg (by decide)]
  rw [hstep1]
  have hne : rest.reverse.dropWhile isJsWs ≠ [] := by
    rw [Ne, List.dropWhile_eq_nil_iff]
    push_neg
    rcases hx with ⟨x, hmem, hws⟩
    exact ⟨x, List.mem_reverse.mpr hmem, by simp [hws]⟩
  have hstep2 : ('-' :: ' ' :: rest).reverse = rest.reverse ++ [' ', '-'] := by
    simp
  rw [hstep2, List.dropWhile_append]
  rw [if_neg (by simpa using hne)]
  rw [List.reverse_append]
  -- now the list is '-' :: ' ' :: (rest.reverse.dropWhile isJsWs).reverse
  unfold isTaskLineTrim bulletMatch
  have : (rest.reverse.dropWhile isJsWs).reverse ≠ [] := by
    simpa using hne
  rcases hr : (rest.reverse.dropWhile isJsWs).reverse with _ | ⟨a, b⟩
  · exact absurd hr this
  · simp [isBulletChar]
    exact Or.inl (by decide)

/-- Every rendered task line is recognized as a task line on re-scan. -/
theorem renderTaskLine_isTask (t : TodoTask) : isTaskL (renderTaskLine t) = true := by
  have hcases : getStatusIcon t.status = "✅" ∨ getStatusIcon t.status = "⚙️" ∨
      getStatusIcon t.status = "📋" := by
    unfold getStatusIcon
    by_cases h1 : t.status = "completed"
    · simp [h1]
    · by_cases h2 : t.status = "in_progress" <;> simp [h1, h2]
  unfold renderTaskLine
  rw [show ("- ").data = ['-', ' '] from rfl]
  rcases hcases with h | h | h <;> rw [h] <;>
    apply isTaskL_cons_bullet
  · exact ⟨'✅', by rw [show ("✅").data = ['✅'] from rfl]; simp, by decide⟩
  · exact ⟨'⚙', by rw [show ("⚙️").data = ['⚙', '️'] from rfl]; simp, by decide⟩
  · exact ⟨'📋', by rw [show ("📋").data = ['📋'] from rfl]; simp, by decide⟩

/-- Every line of the rendered block is a task line. -/
theorem renderAll_isTask (tasks : List TodoTask) :
    ∀ x ∈ renderAll tasks, isTaskL x = true := by
  intro x hx
  rcases List.mem_map.mp hx with ⟨t, _, rfl⟩
  exact renderTaskLine_isTask t

/-- Step equation: a task line is skipped and sets both flags. -/
theorem descLoop_cons_task (tasks : List TodoTask) (l : List Char)
    (ls : List (List Char)) (i f : Bool) (h : isTaskL l = true) :
    descLoop tasks (l :: ls) i f = descLoop tasks ls true true := by
  rw [descLoop, if_pos h]

/-- Step equation: a terminator met inside a task section inserts the
rendered block before itself and resets the flag. -/
theorem descLoop_cons_term (tasks : List TodoTask) (l : List Char)
    (ls : List (List Char)) (f : Bool) (hterm : isTermL l = true)
    (htask : isTaskL l = false) :
    descLoop tasks (l :: ls) true f =
      (renderAll tasks ++ l :: (descLoop tasks ls false f).1,
        (descLoop tasks ls false f).2) := by
  rw [descLoop, if_neg (by simp [htask]), if_pos (by simp [hterm])]

/-- Step equation: any other line passes through with the state kept. -/
theorem descLoop_cons_other (tasks : List TodoTask) (l : List Char)
    (ls : List (List Char)) (i f : Bool) (htask : isTaskL l = false)
    (hni : (i && isTermL l) = false) :
    descLoop tasks (l :: ls) i f =
      (l :: (descLoop tasks ls i f).1, (descLoop tasks ls i f).2) := by
  rw [descLoop, if_neg (by simp [htask]), if_neg (by simp [hni])]

/-- The final `taskSectionFound` flag records whether any task line was
seen. -/
theorem descLoop_found (tasks : List TodoTask) (ls : List (List Char))
    (i f : Bool) : (descLoop tasks ls i f).2.2 = (f || ls.any isTaskL) := by
  induction ls generalizing i f with
  | nil => simp [descLoop]
  | cons l ls ih =>
    by_cases h : isTaskL l = true
    · rw [descLoop_cons_task tasks l ls i f h, ih]
      simp [h]
    · have hb : isTaskL l = false := by simpa using h
      by_cases h2 : (i && isTermL l) = true
      · rcases Bool.and_eq_true_iff.mp h2 with ⟨hi, ht⟩
        subst hi
        rw [descLoop_cons_term tasks l ls f ht hb, ih]
        simp [hb]
      · rw [descLoop_cons_other tasks l ls i f hb (by simpa using h2), ih]
        simp [hb]

/-- Every emitted line is an input line or a rendered task line. -/
theorem descLoop_mem (tasks : List TodoTask) (ls : List (List Char))
    (i f : Bool) : ∀ x ∈ (descLoop tasks ls i f).1,
      x ∈ ls ∨ x ∈ renderAll tasks := by
  induction ls generalizing i f with
  | nil => intro x hx; exact absurd hx (by simp [descLoop])
  | cons l ls ih =>
    intro x hx
    by_cases h : isTaskL l = true
    · rw [descLoop_cons_task tasks l ls i f h] at hx
      rcases ih true true x hx with h' | h'
      · exact .inl (.tail _ h')
      · exact .inr h'
    · have hb : isTaskL l = false := by simpa using h
      by_cases h2 : (i && isTermL l) = true
      · rcases Bool.and_eq_true_iff.mp h2 with ⟨hi, ht⟩
        subst hi
        rw [descLoop_cons_term tasks l ls f ht hb] at hx
        rcases List.mem_append.mp hx with h' | h'
        · exact .inr h'
        · rcases h' with _ | ⟨_, h''⟩
          · exact .inl (.head _)
          · rcases ih false f x (by assumption) with h3 | h3
            · exact .inl (.tail _ h3)
            · exact .inr h3
      · rw [descLoop_cons_other tasks l ls i f hb (by simpa using h2)] at hx
        rcases hx with _ | ⟨_, h''⟩
        · exact .inl (.head _)
        · rcases ih i f x (by assumption) with h3 | h3
          · exact .inl (.tail _ h3)
          · exact .inr h3

/-- With an empty task list the loop simply deletes every task line. -/
theorem descLoop_empty_tasks (ls : List (List Char)) (i f : Bool) :
    (descLoop [] ls i f).1 = ls.filter (fun l => !isTaskL l) := by
  induction ls generalizing i f with
  | nil => rfl
  | cons l ls ih =>
    by_cases h : isTaskL l = true
    · rw [descLoop_cons_task [] l ls i f h, ih, List.filter_cons]
      simp [h]
    · have hb : isTaskL l = false := by simpa using h
      by_cases h2 : (i && isTermL l) = true
      · rcases Bool.and_eq_true_iff.mp h2 with ⟨hi, ht⟩
        subst hi
        rw [descLoop_cons_term [] l ls f ht hb]
        dsimp only
        rw [ih, List.filter_cons]
        simp [renderAll, hb]
      · rw [descLoop_cons_other [] l ls i f hb (by simpa using h2)]
        dsimp only
        rw [ih, List.filter_cons]
        simp [hb]

/-- The loop's output always has the block/prose shape. -/
theorem descLoop_outShape (tasks : List TodoTask) (ls : List (List Char))
    (i f : Bool) : OutShape tasks (descLoop tasks ls i f).1 := by
  induction ls generalizing i f with
  | nil => exact .nil
  | cons l ls ih =>
    by_cases h : isTaskL l = true
    · rw [descLoop_cons_task tasks l ls i f h]
      exact ih true true
    · have hb : isTaskL l = false := by simpa using h
      by_cases h2 : (i && isTermL l) = true
      · rcases Bool.and_eq_true_iff.mp h2 with ⟨hi, ht⟩
        subst hi
        rw [descLoop_cons_term tasks l ls f ht hb]
        exact .block l _ ht (ih false f)
      · rw [descLoop_cons_other tasks l ls i f hb (by simpa using h2)]
        exact .prose l _ hb (ih i f)

/-- A non-empty all-task-line run is consumed, setting both flags. -/
theorem descLoop_run (tasks : List TodoTask) (run xs : List (List Char))
    (i f : Bool) (hne : run ≠ []) (hall : ∀ l ∈ run, isTaskL l = true) :
    descLoop tasks (run ++ xs) i f = descLoop tasks xs true true := by
  induction run generalizing i f with
  | nil => exact absurd rfl hne
  | cons l rest ih =>
    rw [List.cons_append, descLoop_cons_task tasks l (rest ++ xs) i f
      (hall l (.head _))]
    rcases rest with _ | ⟨r0, rest'⟩
    · rfl
    · exact ih true true (by simp) (fun x hx => hall x (.tail _ hx))

/-- A prefix without task lines passes through (the flag cannot be set
inside it). -/
theorem descLoop_pre (tasks : List TodoTask) (pre xs : List (List Char))
    (f : Bool) (hpre : ∀ l ∈ pre, isTaskL l = false) :
    descLoop tasks (pre ++ xs) false f =
      (pre ++ (descLoop tasks xs false f).1, (descLoop tasks xs false f).2) := by
  induction pre with
  | nil => simp
  | cons l rest ih =>
    rw [List.cons_append,
      descLoop_cons_other tasks l (rest ++ xs) false f (hpre l (.head _)) (by simp),
      ih (fun x hx => hpre x (.tail _ hx))]
    rfl

/-- Scanning an already-reconciled output from the idle state reproduces it
verbatim. -/
theorem descLoop_fix (tasks : List TodoTask) (out : List (List Char))
    (hshape : OutShape tasks out) :
    ∀ f, (descLoop tasks out false f).1 = out ∧
      (descLoop tasks out false f).2.1 = false := by
  induction hshape with
  | nil => intro f; exact ⟨rfl, rfl⟩
  | prose l rest hl _ ih =>
    intro f
    rw [descLoop_cons_other tasks l rest false f hl (by simp)]
    exact ⟨by rw [(ih f).1], (ih f).2⟩
  | block l rest hl _ ih =>
    intro f
    have hlt : isTaskL l = false := isTermL_not_task l hl
    by_cases htasks : tasks = []
    · subst htasks
      rw [show renderAll [] = [] from rfl, List.nil_append,
        descLoop_cons_other [] l rest false f hlt (by simp)]
      exact ⟨by rw [(ih f).1], (ih f).2⟩
    · have hrne : renderAll tasks ≠ [] := by
        cases tasks with
        | nil => exact absurd rfl htasks
        | cons t ts => simp [renderAll]
      rw [descLoop_run tasks (renderAll tasks) (l :: rest) false f hrne
        (renderAll_isTask tasks),
        descLoop_cons_term tasks l rest true hl hlt]
      exact ⟨by rw [(ih true).1], (ih true).2⟩

/-- A positive insert count needs a task line. -/
theorem countInserts_any (ls : List (List Char)) (i : Bool)
    (h : 1 ≤ countInserts ls i) : (i || ls.any isTaskL) = true := by
  induction ls generalizing i with
  | nil => simp [countInserts] at h
  | cons l ls ih =>
    by_cases ht : isTaskL l = true
    · simp [ht]
    · have hb : isTaskL l = false := by simpa using ht
      unfold countInserts at h
      rw [if_neg (by simp [hb])] at h
      by_cases h2 : (i && isTermL l) = true
      · rcases Bool.and_eq_true_iff.mp h2 with ⟨hi, _⟩
        simp [hi]
      · rw [if_neg (by simpa using h2)] at h
        have := ih i h
        rcases Bool.or_eq_true_iff.mp this with hi | ha
        · simp [hi]
        · simp [List.any_cons, ha]

/-- With a non-empty task list and at least one insertion, the output
contains a task line. -/
theorem descLoop_out_any (tasks : List TodoTask) (ls : List (List Char))
    (i f : Bool) (hts : tasks ≠ []) (h : 1 ≤ countInserts ls i) :
    (descLoop tasks ls i f).1.any isTaskL = true := by
  induction ls generalizing i f with
  | nil => simp [countInserts] at h
  | cons l ls ih =>
    by_cases ht : isTaskL l = true
    · rw [descLoop_cons_task tasks l ls i f ht]
      refine ih true true ?_
      unfold countInserts at h
      rwa [if_pos ht] at h
    · have hb : isTaskL l = false := by simpa using ht
      unfold countInserts at h
      rw [if_neg (by simp [hb])] at h
      by_cases h2 : (i && isTermL l) = true
      · rcases Bool.and_eq_true_iff.mp h2 with ⟨hi, hterm⟩
        subst hi
        rw [descLoop_cons_term tasks l ls f hterm hb]
        dsimp only
        rcases htasks : tasks with _ | ⟨t, ts⟩
        · exact absurd htasks hts
        · simp [renderAll, List.any_append, renderTaskLine_isTask t]
      · rw [if_neg (by simpa using h2)] at h
        rw [descLoop_cons_other tasks l ls i f hb (by simpa using h2)]
        dsimp only
        simp [List.any_cons, hb, ih i f h]

/-- `split('\n')` always yields at least one line. -/
theorem splitLines_ne_nil (l : List Char) : splitLines l ≠ [] := by
  induction l with
  | nil => simp [splitLines]
  | cons c rest ih =>
    unfold splitLines
    by_cases h : c = '\n'
    · simp [h]
    · rw [if_neg h]
      rcases hs : splitLines rest with _ | ⟨x, xs⟩
      · simp
      · simp

/-- Lines produced by `split('\n')` contain no newline. -/
theorem mem_splitLines_no_newline (l : List Char) :
    ∀ x ∈ splitLines l, ('\n' : Char) ∉ x := by
  induction l with
  | nil =>
    intro x hx
    simp [splitLines] at hx
    simp [hx]
  | cons c rest ih =>
    intro x hx
    unfold splitLines at hx
    by_cases h : c = '\n'
    · rw [if_pos h] at hx
      rcases hx with _ | ⟨_, hx'⟩
      · simp
      · exact ih x (by assumption)
    · rw [if_neg h] at hx
      rcases hs : splitLines rest with _ | ⟨y, ys⟩
      · exact absurd hs (splitLines_ne_nil rest)
      · rw [hs] at hx
        rcases hx with _ | ⟨_, hx'⟩
        · intro hmem
          rcases hmem with _ | ⟨_, hmem'⟩
          · exact h rfl
          · exact ih y (by rw [hs]; exact .head _) (by assumption)
        · exact ih x (by rw [hs]; exact .tail _ (by assumption))

/-- A newline-free piece splits to itself. -/
theorem splitLines_no_newline_id (x : List Char) (h : ('\n' : Char) ∉ x) :
    splitLines x = [x] := by
  induction x with
  | nil => rfl
  | cons c rest ih =>
    unfold splitLines
    rw [if_neg (fun hc => h (by rw [hc]; exact .head _)),
      ih (fun hm => h (.tail _ hm))]

/-- Splitting after a newline-free first line peels it off. -/
theorem splitLines_append_newline (x r : List Char) (h : ('\n' : Char) ∉ x) :
    splitLines (x ++ '\n' :: r) = x :: splitLines r := by
  induction x with
  | nil => simp [splitLines]
  | cons c rest ih =>
    rw [List.cons_append]
    conv_lhs => rw [splitLines]
    rw [if_neg (fun hc => h (by rw [hc]; exact .head _)),
      ih (fun hm => h (.tail _ hm))]

/-- `split` after `join` is the identity on non-empty lists of newline-free
lines. -/
theorem splitLines_joinLines (ls : List (List Char)) (h1 : ls ≠ [])
    (h2 : ∀ x ∈ ls, ('\n' : Char) ∉ x) : splitLines (joinLines ls) = ls := by
  induction ls with
  | nil => exact absurd rfl h1
  | cons x xs ih =>
    rcases xs with _ | ⟨y, ys⟩
    · exact splitLines_no_newline_id x (h2 x (.head _))
    · show splitLines (x ++ '\n' :: joinLines (y :: ys)) = x :: y :: ys
      rw [splitLines_append_newline x _ (h2 x (.head _)),
        ih (by simp) (fun z hz => h2 z (.tail _ hz))]

/-- The status icon is one of the three glyphs. -/
theorem getStatusIcon_cases (s : String) :
    getStatusIcon s = "✅" ∨ getStatusIcon s = "⚙️" ∨ getStatusIcon s = "📋" := by
  unfold getStatusIcon
  by_cases h1 : s = "completed"
  · simp [h1]
  · by_cases h2 : s = "in_progress" <;> simp [h1, h2]

/-- Glyph stripping only removes characters. -/
theorem stripLeadingGlyph_mem (l : List Char) :
    ∀ c ∈ stripLeadingGlyph l, c ∈ l := by
  intro c hc
  rcases l with _ | ⟨a, rest⟩
  · exact absurd hc (by simp [stripLeadingGlyph])
  · simp only [stripLeadingGlyph] at hc
    by_cases h : isGlyphChar a = true
    · rw [if_pos h] at hc
      exact .tail _ ((List.dropWhile_sublist _).subset hc)
    · rw [if_neg h] at hc
      exact hc

/-- A rendered task line contains no newline when the task's content does
not. -/
theorem renderTaskLine_no_newline (t : TodoTask)
    (h : ('\n' : Char) ∉ t.content.data) :
    ('\n' : Char) ∉ renderTaskLine t := by
  unfold renderTaskLine
  intro hmem
  rcases List.mem_append.mp hmem with h1 | h1
  · rcases List.mem_append.mp h1 with h2 | h2
    · rw [show ("- ").data = ['-', ' '] from rfl] at h2
      simp at h2
    · rcases getStatusIcon_cases t.status with hi | hi | hi <;> rw [hi] at h2
      · rw [show ("✅").data = ['✅'] from rfl] at h2
        simp at h2
      · rw [show ("⚙️").data = ['⚙', '️'] from rfl] at h2
        simp at h2
      · rw [show ("📋").data = ['📋'] from rfl] at h2
        simp at h2
  · simp only [List.mem_cons] at h1
    rcases h1 with h2 | h2
    · simp at h2
    · exact h (stripLeadingGlyph_mem _ _ h2)

/-! ## C3 -/

/-- C3 counterexample: when the first run of task lines extends to the end
of the document, the reconciled body contains no rendered task line at all
— the run is deleted and nothing is inserted (here the whole body becomes
empty). -/
theorem c3_counterexample :
    generateUpdatedDescription "- old" [newTask] = "" ∧
    containsList (("- ✅ new task").data)
      (generateUpdatedDescription "- old" [newTask]).data = false := by
  decide

/-- C3 amended: when the first run of task lines is followed (after the
lines the scan keeps passing through) by a terminator line — blank, `#`-led
or `---`-led — before the end of the document, the reconciled body carries,
right before that terminator, exactly one rendered line per task in
sequence order, each `- <glyph> <content with any leading glyph stripped>`
(`renderTaskLine`); a run that reaches the end of the document is deleted
with nothing re-emitted. -/
theorem c3_first_block (desc : String) (tasks : List TodoTask)
    (pre run : List (List Char)) (term : List Char) (rest : List (List Char))
    (hsplit : splitLines desc.data = pre ++ run ++ term :: rest)
    (hpre : ∀ l ∈ pre, isTaskL l = false)
    (hrun_ne : run ≠ []) (hrun : ∀ l ∈ run, isTaskL l = true)
    (hterm : isTermL term = true)
    (hnl : ∀ t ∈ tasks, ('\n' : Char) ∉ t.content.data)
    (hts : tasks ≠ []) :
    ∃ tail, splitLines (generateUpdatedDescription desc tasks).data =
      pre ++ tasks.map renderTaskLine ++ term :: tail := by
  refine ⟨(descLoop tasks rest false true).1, ?_⟩
  have hloop : (descLoop tasks (splitLines desc.data) false false).1 =
      pre ++ renderAll tasks ++ term :: (descLoop tasks rest false true).1 := by
    rw [hsplit, List.append_assoc,
      descLoop_pre tasks pre (run ++ term :: rest) false hpre,
      descLoop_run tasks run (term :: rest) false false hrun_ne hrun,
      descLoop_cons_term tasks term rest true hterm (isTermL_not_task term hterm)]
    simp [List.append_assoc]
  have hfound : (descLoop tasks (splitLines desc.data) false false).2.2 = true := by
    rw [descLoop_found, hsplit]
    rcases run with _ | ⟨r0, run'⟩
    · exact absurd rfl hrun_ne
    · simp [List.any_append, List.any_cons, hrun r0 (.head _)]
  have hform : (generateUpdatedDescription desc tasks).data =
      joinLines (descLoop tasks (splitLines desc.data) false false).1 := by
    unfold generateUpdatedDescription
    dsimp only
    rw [hfound]
    simp
  rw [hform, hloop]
  rw [splitLines_joinLines]
  · rfl
  · simp
  · intro x hx
    rw [← hloop] at hx
    rcases descLoop_mem tasks (splitLines desc.data) false false x hx with h' | h'
    · exact mem_splitLines_no_newline _ x h'
    · rcases List.mem_map.mp h' with ⟨t, ht, rfl⟩
      exact renderTaskLine_no_newline t (hnl t ht)

/-- C3 witness: Scenario A — the block between `## Plan` and the blank line
is replaced by the single rendered line `- ✅ new task`. -/
theorem c3_first_block_witness :
    (∃ tail, splitLines (generateUpdatedDescription
        "## Plan\n- 📋 old task\n\n---\nfooter" [newTask]).data =
      [("## Plan").data] ++ [newTask].map renderTaskLine ++ ([] : List Char) :: tail) :=
  c3_first_block "## Plan\n- 📋 old task\n\n---\nfooter" [newTask]
    [("## Plan").data] [("- 📋 old task").data] [] [("---").data, ("footer").data]
    (by decide) (by decide) (by decide) (by decide) (by decide) (by decide) (by decide)

/-! ## C1 -/

/-- C1 counterexample: a body whose task run reaches the end of the
document reconciles to the empty body (the run is dropped, nothing is
re-emitted), and a second pass then appends a fresh `## Current Tasks`
section — not a fixed point. -/
theorem c1_counterexample :
    generateUpdatedDescription
        (generateUpdatedDescription "- old" [newTask]) [newTask] ≠
      generateUpdatedDescription "- old" [newTask] := by
  decide

/-- C1 amended: the Description Reconciler is idempotent for a given body
and Task sequence provided the tasks' contents are newline-free and either
the task sequence is empty or the body's scan fires the insert-block branch
at least once (a terminator line is reached inside the first task section
— exactly the bodies whose task block does not run off the end of the
document and which have a task block at all). -/
theorem c1_reconciler_idempotent (desc : String) (tasks : List TodoTask)
    (hnl : ∀ t ∈ tasks, ('\n' : Char) ∉ t.content.data)
    (hocc : tasks = [] ∨ 1 ≤ countInserts (splitLines desc.data) false) :
    generateUpdatedDescription (generateUpdatedDescription desc tasks) tasks =
      generateUpdatedDescription desc tasks := by
  by_cases hts : tasks = []
  · subst hts
    have hforms : ∀ s : String, generateUpdatedDescription s [] =
        String.mk (joinLines ((splitLines s.data).filter (fun l => !isTaskL l))) := by
      intro s
      unfold generateUpdatedDescription
      dsimp only
      rw [descLoop_empty_tasks]
      simp
    rw [hforms, hforms]
    rcases hc : (splitLines desc.data).filter (fun l => !isTaskL l) with _ | ⟨o, os⟩
    · rfl
    · rw [← hc]
      have hdata : (String.mk (joinLines
          ((splitLines desc.data).filter (fun l => !isTaskL l)))).data =
          joinLines ((splitLines desc.data).filter (fun l => !isTaskL l)) := rfl
      rw [hdata, splitLines_joinLines _ (by rw [hc]; simp)
        (fun x hx => mem_splitLines_no_newline _ x (List.mem_filter.mp hx).1)]
      rw [List.filter_eq_self.mpr (fun a ha => (List.mem_filter.mp ha).2)]
  · have hcount : 1 ≤ countInserts (splitLines desc.data) false := hocc.resolve_left hts
    have hfound : (descLoop tasks (splitLines desc.data) false false).2.2 = true := by
      rw [descLoop_found]
      simpa using countInserts_any (splitLines desc.data) false hcount
    have houter : generateUpdatedDescription desc tasks =
        String.mk (joinLines (descLoop tasks (splitLines desc.data) false false).1) := by
      unfold generateUpdatedDescription
      dsimp only
      rw [hfound]
      simp
    have hany : ((descLoop tasks (splitLines desc.data) false false).1).any isTaskL = true :=
      descLoop_out_any tasks (splitLines desc.data) false false hts hcount
    have hne : (descLoop tasks (splitLines desc.data) false false).1 ≠ [] := by
      intro h0
      rw [h0] at hany
      simp at hany
    have hnonl : ∀ x ∈ (descLoop tasks (splitLines desc.data) false false).1,
        ('\n' : Char) ∉ x := by
      intro x hx
      rcases descLoop_mem tasks (splitLines desc.data) false false x hx with h' | h'
      · exact mem_splitLines_no_newline _ x h'
      · rcases List.mem_map.mp h' with ⟨t, ht, rfl⟩
        exact renderTaskLine_no_newline t (hnl t ht)
    rw [houter]
    unfold generateUpdatedDescription
    dsimp only
    rw [splitLines_joinLines _ hne hnonl]
    have hfix := descLoop_fix tasks _
      (descLoop_outShape tasks (splitLines desc.data) false false) false
    have hfound2 : (descLoop tasks
        (descLoop tasks (splitLines desc.data) false false).1 false false).2.2 = true := by
      rw [descLoop_found]
      simp [hany]
    rw [hfound2]
    simp only [Bool.not_true, Bool.false_and, Bool.false_eq_true, if_false]
    rw [hfix.1]

/-- C1 witness: Scenario A's body has a properly terminated task block, and
reconciling its reconciliation is a fixed point. -/
theorem c1_reconciler_idempotent_witness :
    generateUpdatedDescription (generateUpdatedDescription
        "## Plan\n- 📋 old task\n\n---\nfooter" [newTask]) [newTask] =
      generateUpdatedDescription "## Plan\n- 📋 old task\n\n---\nfooter" [newTask] :=
  c1_reconciler_idempotent "## Plan\n- 📋 old task\n\n---\nfooter" [newTask]
    (by decide) (by decide)
